import Mathlib

/-!
Shallow embedding of the weekly "Hunters vs Ghosts" contest engine of the
Kandid server (`server.js`, second copy in the repository sources): the
window calculator, the contest registry, the role-assignment sync, the
location-update processor, the capture validator and the `/api/posts`
route that triggers it.

Conventions of the embedding:
* SQLite tables become Lean lists carried in a `Db` record; `INSERT` is
  `++ [row]`, `DELETE`/`WHERE` are `List.filter`, point lookups are
  `List.find?`, and `UPDATE ... WHERE` is a `List.map` guarded by the row
  predicate.
* `Date.now()`, `createId()`, `Math.random()` (challenge pick and the
  Fisher-Yates draws) and the haversine kernel are environment
  parameters (`Env`): one request sees one `now`, a deterministic id
  generator driven by a counter, a challenge index, a draw function for
  the shuffle, and an abstract finite-distance kernel `hav` (the
  floating-point trigonometry of `distanceKm` is not embeddable; every
  claim depends only on the null-coordinate branch and on threshold
  comparisons, which are embedded exactly).
* JavaScript `Infinity` produced by `distanceKm` on a null coordinate is
  the `Dist.infinite` constructor; `Infinity > x` is true and
  `Infinity <= x` is false for the finite thresholds, as in JS.
* Machine timestamps are unbounded `Int` milliseconds (JS numbers are
  exact on this range).
-/

namespace Kandid

/-- Latitude/longitude and distances: exact rationals stand in for the
JS doubles; nullable columns are `Option`. -/
abbrev Coord := ℚ

/-- Result of `distanceKm`: either the finite haversine value or the JS
`Infinity` returned when a coordinate is `null`. -/
inductive Dist where
  | infinite
  | finite (val : ℚ)
deriving DecidableEq

/-- JS `d > th` where `d` may be `Infinity`: `Infinity > th` is true. -/
def Dist.gtThan : Dist → ℚ → Bool
  | .infinite, _ => true
  | .finite d, th => decide (d > th)

/-- JS `d <= th` where `d` may be `Infinity`: `Infinity <= th` is false. -/
def Dist.leThan : Dist → ℚ → Bool
  | .infinite, _ => false
  | .finite d, th => decide (d ≤ th)

/-- JS `Math.round`: half-up rounding toward +∞, `⌊q + 1/2⌋`, written as
an explicit floor division so the kernel can evaluate it. -/
def jsRound (q : ℚ) : ℤ := (2 * q.num + q.den).fdiv (2 * q.den)

/-- Rounded meters used in the proximity-alert message,
`Math.round(distance * 1000)`; the infinite case is unreachable below the
proximity threshold check. -/
def Dist.meters : Dist → ℤ
  | .infinite => 0
  | .finite d => jsRound (d * 1000)

/-- `const CONTEST_START_DAY_UTC = 0` (Sunday). -/
def CONTEST_START_DAY_UTC : Int := 0

/-- `const CONTEST_START_HOUR_UTC = 20` (8 PM UTC). -/
def CONTEST_START_HOUR_UTC : Int := 20

/-- `const CONTEST_DURATION_MS = 7 * 24 * 60 * 60 * 1000`. -/
def CONTEST_DURATION_MS : Int := 7 * 24 * 60 * 60 * 1000

/-- `const CONTEST_PROXIMITY_KM = 0.3` (written with `mkRat` so that
comparisons evaluate by kernel reduction). -/
def CONTEST_PROXIMITY_KM : ℚ := mkRat 3 10

/-- `const CONTEST_ALERT_COOLDOWN_MS = 60 * 60 * 1000` (1 hour). -/
def CONTEST_ALERT_COOLDOWN_MS : Int := 60 * 60 * 1000

/-- `const CONTEST_CAMPING_THRESHOLD_MS = 6 * 60 * 60 * 1000` (6 hours). -/
def CONTEST_CAMPING_THRESHOLD_MS : Int := 6 * 60 * 60 * 1000

/-- `const CONTEST_CAMPING_DISTANCE_KM = 0.1`. -/
def CONTEST_CAMPING_DISTANCE_KM : ℚ := mkRat 1 10

/-- The fixed challenge catalog `CONTEST_CHALLENGES`. -/
def CONTEST_CHALLENGES : List String :=
  [ "Capture them eating",
    "Catch them laughing",
    "Spot them with a colorful outfit",
    "Find them using their phone",
    "Capture them in motion",
    "Catch them with a group of friends" ]

/-! ## WindowCalculator (`getContestWindow`) -/
def msPerHour : Int := 3600000

def msPerDay : Int := 86400000

/-- UTC day index of a millisecond timestamp: floor division (Lean's
`Int` division is Euclidean, which for the positive divisor coincides
with the floor division `new Date(t)` performs). -/
def utcDayIndex (t : Int) : Int := t / msPerDay

/-- `new Date(t).getUTCDay()`: day 0 of the epoch (1970-01-01) was a
Thursday, weekday index 4; Sunday is 0. -/
def getUTCDay (t : Int) : Int := (utcDayIndex t + 4) % 7

/-- The `startsAt` of `getContestWindow`.  The source mutates a `Date`:
setting milliseconds, seconds and minutes to 0 and hours to
`CONTEST_START_HOUR_UTC` replaces the time of day (`start0`); decreasing
the day of month by `dayDiff` shifts by whole days (JS `setUTCDate`
rolls over month boundaries); finally a week is subtracted when the
candidate lies in the future. -/
def windowStart (now : Int) : Int :=
  let start0 := utcDayIndex now * msPerDay + CONTEST_START_HOUR_UTC * msPerHour
  let dayDiff := (getUTCDay now - CONTEST_START_DAY_UTC + 7) % 7
  let start1 := start0 - dayDiff * msPerDay
  if start1 > now then start1 - CONTEST_DURATION_MS else start1

/-- `getContestWindow(now)`: `{startsAt, endsAt}` as a pair. -/
def getContestWindow (now : Int) : Int × Int :=
  (windowStart now, windowStart now + CONTEST_DURATION_MS)

/-- The instants that read "Sunday 20:00:00.000 UTC" on the calendar:
the UTC weekday is Sunday and the time of day is exactly 20 hours. -/
def isSundayTwenty (t : Int) : Prop :=
  (t / msPerDay + 4) % 7 = 0 ∧ t % msPerDay = 20 * msPerHour

instance (t : Int) : Decidable (isSundayTwenty t) := by
  unfold isSundayTwenty; infer_instance

/-! ## Data model -/
/-- Row of the external `users` table (the fields the engine reads). -/
structure User where
  id : String
  displayName : String
  bekandidEnabled : Bool
  locationLat : Option Coord
  locationLng : Option Coord
deriving DecidableEq

/-- Row of `contest_weeks`. -/
structure ContestWeek where
  id : String
  startsAt : Int
  endsAt : Int
  challenge : String
deriving DecidableEq

/-- Row of `contest_assignments`. -/
structure Assignment where
  contestId : String
  userId : String
  role : String
  captures : Int
  survivalFlag : Bool
  campingViolation : Bool
  lastLocationLat : Option Coord
  lastLocationLng : Option Coord
  lastMoveAt : Option Int
deriving DecidableEq

/-- Row of `contest_captures`. -/
structure Capture where
  id : String
  contestId : String
  hunterId : String
  ghostId : String
  postId : Option String
  challenge : String
  createdAt : Int
deriving DecidableEq

/-- Row of `inbox_messages`. -/
structure InboxMessage where
  id : String
  recipientId : String
  postId : Option String
  senderId : String
  createdAt : Int
  read : Bool
  type : String
  message : Option String
deriving DecidableEq

/-- Row of `posts` (the columns the `/api/posts` route writes). -/
structure Post where
  id : String
  authorId : String
  recipientId : String
  image : String
  caption : String
  createdAt : Int
  visibility : String
  originalPostId : Option String
deriving DecidableEq

/-- The persistent state the engine touches, plus the id counter that
drives `createId()`. -/
structure Db where
  users : List User
  contestWeeks : List ContestWeek
  assignments : List Assignment
  captures : List Capture
  inbox : List InboxMessage
  posts : List Post
  nextId : Nat
deriving DecidableEq

/-- Request environment: the wall clock, the id generator, the random
draws and the abstract haversine kernel (arguments in source order
`lat1 lon1 lat2 lon2`). -/
structure Env where
  now : Int
  idGen : Nat → String
  challengePick : Nat
  rand : Nat → Nat
  hav : ℚ → ℚ → ℚ → ℚ → ℚ

/-- `distanceKm(lat1, lon1, lat2, lon2)`: any `null` coordinate yields
`Infinity` (source line `if (lat1 === null || lat2 === null || lon1 ===
null || lon2 === null) return Infinity;`); otherwise the haversine
value. -/
def distanceKm (env : Env) (lat1 lon1 lat2 lon2 : Option Coord) : Dist :=
  match lat1, lat2, lon1, lon2 with
  | some a, some b, some c, some d => Dist.finite (env.hav a c b d)
  | _, _, _, _ => Dist.infinite

/-! ## Shuffle (`shuffle`, Fisher-Yates) -/
/-- Swap the entries at positions `i` and `j`: the JS destructuring
`[copy[i], copy[j]] = [copy[j], copy[i]]`.  Out-of-range indices leave
the list unchanged (unreachable in the source, where `j ≤ i < length`
because `Math.random() < 1`). -/
def listSwap (l : List α) (i j : Nat) : List α :=
  match l.get? i, l.get? j with
  | some x, some y => (l.set i y).set j x
  | _, _ => l

/-- The Fisher-Yates loop of `shuffle`: for `i` from `n` down to `1`,
swap position `i` with position `rand i` (the draw
`Math.floor(Math.random() * (i + 1))`). -/
def shuffleGo (rand : Nat → Nat) : Nat → List α → List α
  | 0, l => l
  | i + 1, l => shuffleGo rand i (listSwap l (i + 1) (rand (i + 1)))

/-- `shuffle(array)`: Fisher-Yates over a copy. -/
def shuffle (rand : Nat → Nat) (l : List α) : List α :=
  shuffleGo rand (l.length - 1) l

/-! ## RoleAssignor (`syncContestAssignments`) and ContestRegistry
(`ensureActiveContest`) -/
/-- A freshly inserted assignment row: the `INSERT` lists
`captures = 0`, `survival_flag = 1` and `last_move_at = now`;
`camping_violation` and the last-location columns take their table
defaults (modelled from the spec, the schema file being outside the
staged sources: the camping flag starts unset and no location is
recorded yet). -/
def newAssignment (contestId userId role : String) (now : Int) : Assignment :=
  { contestId := contestId, userId := userId, role := role, captures := 0,
    survivalFlag := true, campingViolation := false,
    lastLocationLat := none, lastLocationLng := none, lastMoveAt := some now }

/-- The incremental-join loop: each still-unassigned participant takes
the role with the smaller running count (`hunterCount <= ghostCount ?
'hunter' : 'ghost'`), counts updated as rows are added. -/
def assignIncremental (now : Int) (contestId : String) :
    List User → Nat → Nat → List Assignment
  | [], _, _ => []
  | u :: rest, hunterCount, ghostCount =>
    if hunterCount ≤ ghostCount then
      newAssignment contestId u.id "hunter" now ::
        assignIncremental now contestId rest (hunterCount + 1) ghostCount
    else
      newAssignment contestId u.id "ghost" now ::
        assignIncremental now contestId rest hunterCount (ghostCount + 1)

/-- The `DELETE ... WHERE contest_id = ? AND user_id IN (bekandid)`
step of the sync (the statement only runs when the opted-out list is
nonempty, where it is the identity anyway). -/
def retract (contestId : String) (users : List User) (assignments : List Assignment) :
    List Assignment :=
  let bekandid := users.filter (fun u => u.bekandidEnabled)
  if bekandid.isEmpty then assignments
  else assignments.filter (fun a =>
    !(decide (a.contestId = contestId) &&
      bekandid.any (fun u => decide (u.id = a.userId))))

/-- The `contest_assignments` table as `syncContestAssignments`
rewrites it: retraction, then initial shuffled partition (when the week
has no rows) or incremental join. -/
def syncedAssignments (env : Env) (contestId : String) (db : Db) : List Assignment :=
  let participants := db.users.filter (fun u => !u.bekandidEnabled)
  let assignments1 := retract contestId db.users db.assignments
  let existing := assignments1.filter (fun a => decide (a.contestId = contestId))
  if existing.isEmpty then
    let shuffled := shuffle env.rand participants
    let midpoint := (shuffled.length + 1) / 2
    let hunters := shuffled.take midpoint
    let ghosts := shuffled.drop midpoint
    assignments1
      ++ hunters.map (fun u => newAssignment contestId u.id "hunter" env.now)
      ++ ghosts.map (fun u => newAssignment contestId u.id "ghost" env.now)
  else
    let toAssign := participants.filter (fun u =>
      !(existing.any (fun a => decide (a.userId = u.id))))
    let hunterCount := (existing.filter (fun a => decide (a.role = "hunter"))).length
    let ghostCount := (existing.filter (fun a => decide (a.role = "ghost"))).length
    assignments1
      ++ assignIncremental env.now contestId toAssign hunterCount ghostCount

/-- `syncContestAssignments(contestId)`: delete the assignments of
opted-out (`bekandid_enabled = 1`) users, then either run the initial
shuffled partition (when the week has no assignment rows) or
incrementally assign the missing eligible users; only the
`contest_assignments` table is written. -/
def syncContestAssignments (env : Env) (contestId : String) (db : Db) : Db :=
  { db with assignments := syncedAssignments env contestId db }

/-- `ensureActiveContest()`: look up the week keyed on `startsAt`,
create it with a random catalog challenge if absent
(`Math.floor(Math.random() * CONTEST_CHALLENGES.length)` is a catalog
index, embedded as `challengePick` reduced into range), then always
sync and return the week. -/
def ensureActiveContest (env : Env) (db : Db) : ContestWeek × Db :=
  let w := getContestWindow env.now
  match db.contestWeeks.find? (fun c => decide (c.startsAt = w.1)) with
  | some contest => (contest, syncContestAssignments env contest.id db)
  | none =>
    let contest : ContestWeek :=
      { id := env.idGen db.nextId, startsAt := w.1, endsAt := w.2,
        challenge :=
          CONTEST_CHALLENGES.getD (env.challengePick % CONTEST_CHALLENGES.length) "" }
    let db1 := { db with contestWeeks := db.contestWeeks ++ [contest],
                         nextId := db.nextId + 1 }
    (contest, syncContestAssignments env contest.id db1)

/-! ## NotificationSink (`createInboxEntry`) -/
/-- `createInboxEntry({...})`: insert an unread inbox message with a
fresh id. -/
def createInboxEntry (env : Env) (db : Db) (recipientId senderId : String)
    (postId : Option String) (type : String) (message : Option String)
    (createdAt : Int) : Db :=
  { db with
      inbox := db.inbox ++
        [{ id := env.idGen db.nextId, recipientId := recipientId,
           postId := postId, senderId := senderId, createdAt := createdAt,
           read := false, type := type, message := message }],
      nextId := db.nextId + 1 }

/-! ## LocationUpdateProcessor (`handleContestLocationUpdate`) -/
/-- The warning text of the camping branch. -/
def campingWarningText : String :=
  "Ghost alert: move around! Staying put will get you disqualified."

/-- JS `assignment.last_move_at || now`: `null` and the falsy timestamp
`0` both fall back to `now`. -/
def jsFalsyOr (v : Option Int) (dflt : Int) : Int :=
  match v with
  | none => dflt
  | some t => if t = 0 then dflt else t

/-- The row predicate of every `WHERE contest_id = ? AND user_id = ?`
clause on `contest_assignments`. -/
def keyMatch (contestId userId : String) (a : Assignment) : Bool :=
  decide (a.contestId = contestId ∧ a.userId = userId)

/-- The first `UPDATE` of the handler: record the reported coordinates
and set `last_move_at = COALESCE(last_move_at, now)`. -/
def recordLocation (contestId userId : String) (lat lng : Coord) (now : Int)
    (db : Db) : Db :=
  { db with assignments := db.assignments.map (fun a =>
      if keyMatch contestId userId a then
        { a with lastLocationLat := some lat, lastLocationLng := some lng,
                 lastMoveAt := some (a.lastMoveAt.getD now) }
      else a) }

/-- The ghost branch: a qualifying move (`movedDistance >
CONTEST_CAMPING_DISTANCE_KM`) clears `camping_violation` and resets
`last_move_at`; otherwise a stale `last_move_at` sets the flag and
emits one `contest_warning` message.  `assignment` is the row as read
before the location write. -/
def ghostBranch (env : Env) (contestId userId : String) (lat lng : Coord)
    (assignment : Assignment) (db : Db) : Db :=
  let previousMove := jsFalsyOr assignment.lastMoveAt env.now
  let movedDistance :=
    distanceKm env assignment.lastLocationLat assignment.lastLocationLng
      (some lat) (some lng)
  if movedDistance.gtThan CONTEST_CAMPING_DISTANCE_KM then
    { db with assignments := db.assignments.map (fun a =>
        if keyMatch contestId userId a then
          { a with campingViolation := false, lastMoveAt := some env.now }
        else a) }
  else if env.now - previousMove > CONTEST_CAMPING_THRESHOLD_MS then
    let db1 := { db with assignments := db.assignments.map (fun a =>
        if keyMatch contestId userId a then { a with campingViolation := true }
        else a) }
    createInboxEntry env db1 userId userId none "contest_warning"
      (some campingWarningText) env.now
  else db

/-- One row of the hunter branch's ghost scan (`SELECT ca.user_id,
u.display_name, u.location_lat, u.location_lng ... JOIN users`). -/
structure GhostRow where
  userId : String
  displayName : String
  locationLat : Option Coord
  locationLng : Option Coord
deriving DecidableEq

/-- The ghost scan: live (`survival_flag = 1`) ghost assignments of the
week, inner-joined with the user directory for name and live location. -/
def ghostRows (db : Db) (contestId : String) : List GhostRow :=
  db.assignments.filterMap (fun a =>
    if decide (a.contestId = contestId ∧ a.role = "ghost" ∧ a.survivalFlag = true) then
      (db.users.find? (fun u => decide (u.id = a.userId))).map (fun u =>
        { userId := a.userId, displayName := u.displayName,
          locationLat := u.locationLat, locationLng := u.locationLng })
    else none)

/-- `ORDER BY created_at DESC LIMIT 1` over an already-filtered list:
an entry with the maximal `created_at`. -/
def mostRecent (l : List InboxMessage) : Option InboxMessage :=
  l.foldl (fun acc m =>
    match acc with
    | none => some m
    | some b => if m.createdAt > b.createdAt then some m else some b) none

/-- The messages the cooldown query ranges over: the previous
`contest_alert` notifications of this exact (hunter, ghost) pair. -/
def pairAlerts (inbox : List InboxMessage) (hunterId ghostId : String) :
    List InboxMessage :=
  inbox.filter (fun m =>
    decide (m.recipientId = hunterId ∧ m.senderId = ghostId ∧ m.type = "contest_alert"))

/-- The cooldown guard: no previous alert for the pair, or the most
recent one older than `CONTEST_ALERT_COOLDOWN_MS`. -/
def alertCooldownPassed (now : Int) (inbox : List InboxMessage)
    (hunterId ghostId : String) : Bool :=
  match mostRecent (pairAlerts inbox hunterId ghostId) with
  | none => true
  | some m => decide (now - m.createdAt > CONTEST_ALERT_COOLDOWN_MS)

/-- One iteration of the hunter branch's loop over the ghost scan. -/
def processProximity (env : Env) (hunterId : String) (lat lng : Coord)
    (db : Db) (g : GhostRow) : Db :=
  let d := distanceKm env (some lat) (some lng) g.locationLat g.locationLng
  if d.leThan CONTEST_PROXIMITY_KM then
    if alertCooldownPassed env.now db.inbox hunterId g.userId then
      createInboxEntry env db hunterId g.userId none "contest_alert"
        (some (g.displayName ++ " is within " ++ toString d.meters ++ " meters!"))
        env.now
    else db
  else db

/-- `handleContestLocationUpdate(userId, lat, lng)`: ensure the active
week, silently return for non-participants, record the location, then
run camping detection (ghosts) or proximity alerting (hunters).  The
route guarantees `lat`/`lng` are numbers. -/
def handleContestLocationUpdate (env : Env) (userId : String) (lat lng : Coord)
    (db : Db) : Db :=
  let ed := ensureActiveContest env db
  let contest := ed.1
  match ed.2.assignments.find? (keyMatch contest.id userId) with
  | none => ed.2
  | some assignment =>
    let db2 := recordLocation contest.id userId lat lng env.now ed.2
    if assignment.role = "ghost" then
      ghostBranch env contest.id userId lat lng assignment db2
    else if assignment.role ≠ "hunter" then db2
    else
      (ghostRows db2 contest.id).foldl (processProximity env userId lat lng) db2

/-! ## CaptureValidator (`handleContestCapture`) -/
/-- The classification of a capture submission: `ok`, or one of the
three thrown validation errors (each surfaced as HTTP 400). -/
inductive CaptureOutcome where
  | ok
  | challengeMismatch
  | notHunter
  | notActiveGhost
deriving DecidableEq

/-- The thrown error's user-facing message. -/
def CaptureOutcome.message : CaptureOutcome → String
  | .ok => ""
  | .challengeMismatch => "This capture does not match the weekly contest challenge."
  | .notHunter => "Only hunters can submit contest captures."
  | .notActiveGhost => "Target is not an active ghost."

/-- The `UPDATE ... SET captures = captures + 1` row function. -/
def bumpCaptures (contestId hunterId : String) (a : Assignment) : Assignment :=
  if keyMatch contestId hunterId a then { a with captures := a.captures + 1 }
  else a

/-- The `UPDATE ... SET survival_flag = 0` row function. -/
def dropSurvival (contestId ghostId : String) (a : Assignment) : Assignment :=
  if keyMatch contestId ghostId a then { a with survivalFlag := false } else a

/-- The success-path writes of `handleContestCapture`: append the
capture record, increment the hunter's `captures`, drop the ghost's
`survival_flag`, and emit the two notifications. -/
def captureWrites (env : Env) (contestId hunterId ghostId : String)
    (postId : Option String) (challenge : String) (db1 : Db) : Db :=
  let db2 := { db1 with
    captures := db1.captures ++
      [({ id := env.idGen db1.nextId, contestId := contestId,
          hunterId := hunterId, ghostId := ghostId, postId := postId,
          challenge := challenge, createdAt := env.now } : Capture)],
    nextId := db1.nextId + 1 }
  let db3 := { db2 with
    assignments := db2.assignments.map (bumpCaptures contestId hunterId) }
  let db4 := { db3 with
    assignments := db3.assignments.map (dropSurvival contestId ghostId) }
  let db5 := createInboxEntry env db4 hunterId ghostId postId
    "contest_capture" (some "Capture logged! Score updated.") env.now
  createInboxEntry env db5 ghostId hunterId postId
    "contest_captured" (some "You were captured! Better luck next week.")
    env.now

/-- `handleContestCapture({hunterId, ghostId, postId, challenge})`.
Validation order: challenge match, submitter holds a `hunter` row,
target holds a `ghost` row (the row's `survival_flag` is not read).
On success, `captureWrites` runs.  A thrown error leaves the state as
`ensureActiveContest` left it (SQLite autocommit, no rollback). -/
def handleContestCapture (env : Env) (hunterId ghostId : String)
    (postId : Option String) (challenge : String) (db : Db) :
    Db × CaptureOutcome :=
  let ed := ensureActiveContest env db
  let contest := ed.1
  let db1 := ed.2
  if contest.challenge ≠ challenge then (db1, .challengeMismatch)
  else
    match db1.assignments.find? (keyMatch contest.id hunterId),
        db1.assignments.find? (keyMatch contest.id ghostId) with
    | none, _ => (db1, .notHunter)
    | some ha, hg =>
      if ha.role ≠ "hunter" then (db1, .notHunter)
      else
        match hg with
        | none => (db1, .notActiveGhost)
        | some ga =>
          if ga.role ≠ "ghost" then (db1, .notActiveGhost)
          else
            (captureWrites env contest.id hunterId ghostId postId challenge db1,
              .ok)

/-! ## The `/api/posts` route -/
/-- The route's reply: 201 with a state snapshot, or the 400 carrying a
thrown validation message (storage failures are out of scope). -/
inductive PostResponse where
  | created
  | badRequest (msg : String)
deriving DecidableEq

/-- `app.post('/api/posts')`: reject a missing recipient or image,
insert the post row, notify the recipient (a `bekandid_drop` when the
recipient is in BeKandid mode), and only then, when the capture flag is
set, run the capture validator on `(author, recipient)` with
`req.body.contestChallenge || ''`.  A validator error is caught after
the post and inbox writes are already committed; on success
`buildState()` re-runs `ensureActiveContest` before replying. -/
def createPostRoute (env : Env) (userId recipientId image caption visibility : String)
    (contestCapture : Bool) (contestChallenge : String) (db : Db) :
    Db × PostResponse :=
  if recipientId = "" ∨ image = "" then
    (db, .badRequest "Recipient and image are required.")
  else
    let postId := env.idGen db.nextId
    let db1 := { db with
      posts := db.posts ++
        [{ id := postId, authorId := userId, recipientId := recipientId,
           image := image, caption := caption, createdAt := env.now,
           visibility := visibility, originalPostId := none }],
      nextId := db.nextId + 1 }
    let msgType :=
      match db1.users.find? (fun u => decide (u.id = recipientId)) with
      | some u => if u.bekandidEnabled then "bekandid_drop" else "drop"
      | none => "drop"
    let db2 := createInboxEntry env db1 recipientId userId (some postId) msgType
      none env.now
    if contestCapture then
      let r := handleContestCapture env userId recipientId (some postId)
        contestChallenge db2
      match r.2 with
      | .ok => ((ensureActiveContest env r.1).2, .created)
      | e => (r.1, .badRequest e.message)
    else ((ensureActiveContest env db2).2, .created)

/-! ## Concrete fixtures

A two-user world inside the week starting Sunday 2026-10-11 20:00:00
UTC (`1791748800000` ms).  The haversine kernel is the constant `0`
(two parties at the same reported spot), the id generator is
deterministic, and the shuffle draws are all `0`. -/
def env0 : Env :=
  { now := 1791748800000, idGen := fun n => "id" ++ toString n,
    challengePick := 0, rand := fun _ => 0, hav := fun _ _ _ _ => 0 }

/-- `env0` seven hours into the week. -/
def envT : Env := { env0 with now := 1791748800000 + 7 * 3600000 }

def hunterUser : User :=
  { id := "u1", displayName := "Hunter", bekandidEnabled := false,
    locationLat := some 1, locationLng := some 1 }

def ghostUser : User :=
  { id := "u2", displayName := "Ghosty", bekandidEnabled := false,
    locationLat := some 1, locationLng := some 1 }

def week0 : ContestWeek :=
  { id := "w0", startsAt := 1791748800000,
    endsAt := 1791748800000 + CONTEST_DURATION_MS,
    challenge := "Capture them eating" }

def hunterRow : Assignment :=
  { contestId := "w0", userId := "u1", role := "hunter", captures := 0,
    survivalFlag := true, campingViolation := false,
    lastLocationLat := none, lastLocationLng := none,
    lastMoveAt := some 1791748800000 }

/-- A ghost already captured this week: `survival_flag = 0`. -/
def capturedGhostRow : Assignment :=
  { contestId := "w0", userId := "u2", role := "ghost", captures := 0,
    survivalFlag := false, campingViolation := false,
    lastLocationLat := none, lastLocationLng := none,
    lastMoveAt := some 1791748800000 }

def dbC1 : Db :=
  { users := [hunterUser, ghostUser], contestWeeks := [week0],
    assignments := [hunterRow, capturedGhostRow], captures := [], inbox := [],
    posts := [], nextId := 0 }

/-- A ghost whose camping flag is already set, stationary since the
week began. -/
def campingGhostRow : Assignment :=
  { contestId := "w0", userId := "u2", role := "ghost", captures := 0,
    survivalFlag := true, campingViolation := true,
    lastLocationLat := some 1, lastLocationLng := some 1,
    lastMoveAt := some 1791748800000 }

def dbC3 : Db :=
  { users := [ghostUser], contestWeeks := [week0],
    assignments := [campingGhostRow], captures := [], inbox := [], posts := [],
    nextId := 0 }

/-- A camping-flagged ghost whose stored coordinates are NULL. -/
def nullLocGhostRow : Assignment :=
  { campingGhostRow with
      lastLocationLat := none, lastLocationLng := none }

def dbC4 : Db := { dbC3 with assignments := [nullLocGhostRow] }

/-- The assignment rows of one contest. -/
def contestRows (db : Db) (contestId : String) : List Assignment :=
  db.assignments.filter (fun a => decide (a.contestId = contestId))

/-- Rows of a list holding a given role. -/
def roleCount (l : List Assignment) (r : String) : Nat :=
  (l.filter (fun a => decide (a.role = r))).length

/-- The eligible (not opted-out) population size. -/
def eligibleCount (db : Db) : Nat :=
  (db.users.filter (fun u => !u.bekandidEnabled)).length

/-- An opted-out user (BeKandid mode). -/
def bekandidUser : User :=
  { id := "u3", displayName := "Bek", bekandidEnabled := true,
    locationLat := none, locationLng := none }

/-- A week with no assignment rows yet. -/
def dbC7 : Db :=
  { users := [hunterUser, ghostUser, bekandidUser], contestWeeks := [week0],
    assignments := [], captures := [], inbox := [], posts := [], nextId := 0 }

/-- Separation invariant: any two `contest_alert` messages to the same
hunter about the same ghost lie more than the cooldown apart. -/
def PairAlertsSeparated (msgs : List InboxMessage) : Prop :=
  msgs.Pairwise (fun m1 m2 =>
    m1.type = "contest_alert" → m2.type = "contest_alert" →
    m1.recipientId = m2.recipientId → m1.senderId = m2.senderId →
    m2.createdAt - m1.createdAt > CONTEST_ALERT_COOLDOWN_MS
      ∨ m1.createdAt - m2.createdAt > CONTEST_ALERT_COOLDOWN_MS)

/-- One inbound `/api/users/me/location` request: its wall-clock
instant and payload. -/
structure LocUpdate where
  now : Int
  userId : String
  lat : Coord
  lng : Coord

/-- A sequence of location requests processed in order, each at its own
instant. -/
def runLocationUpdates (env : Env) : List LocUpdate → Db → Db
  | [], db => db
  | u :: rest, db =>
      runLocationUpdates env rest
        (handleContestLocationUpdate { env with now := u.now } u.userId u.lat u.lng db)

/-- A live ghost for the proximity fixtures. -/
def liveGhostRow : Assignment :=
  { campingGhostRow with campingViolation := false }

def dbC8 : Db :=
  { users := [hunterUser, ghostUser], contestWeeks := [week0],
    assignments := [hunterRow, liveGhostRow], captures := [], inbox := [],
    posts := [], nextId := 0 }

/-- Erase the location fields of a user row. -/
def scrubUser (u : User) : User :=
  { u with locationLat := none, locationLng := none }

/-- Erase the last-location fields of an assignment row. -/
def scrubAssignment (a : Assignment) : Assignment :=
  { a with lastLocationLat := none, lastLocationLng := none }

/-- Erase every location field of the state: two states agree on all
non-location data exactly when their scrubs are equal. -/
def scrubDb (db : Db) : Db :=
  { db with users := db.users.map scrubUser,
            assignments := db.assignments.map scrubAssignment }

/-- The hunter at the antipodes. -/
def farHunterUser : User :=
  { hunterUser with locationLat := some 89, locationLng := some 179 }

/-- The ghost with no reported location at all. -/
def noLocGhostUser : User :=
  { ghostUser with locationLat := none, locationLng := none }

def dbC10a : Db :=
  { users := [farHunterUser, ghostUser], contestWeeks := [week0],
    assignments := [{ hunterRow with
        lastLocationLat := some 10, lastLocationLng := some 10 }, liveGhostRow],
    captures := [], inbox := [], posts := [], nextId := 0 }

def dbC10b : Db :=
  { users := [hunterUser, noLocGhostUser], contestWeeks := [week0],
    assignments := [hunterRow, { liveGhostRow with
        lastLocationLat := none, lastLocationLng := none }],
    captures := [], inbox := [], posts := [], nextId := 0 }

/-! ## Theorems -/

/-! ## C6: the contest window -/
/-- C6: for every instant `t`, `getContestWindow` returns `{startsAt,
endsAt}` where `startsAt` is the most recent Sunday 20:00:00.000 UTC at
or before `t` and `endsAt = startsAt + 7 days`; in particular Sunday
19:59:59 UTC falls in the previous week's window and exactly Sunday
20:00:00 UTC starts its own.  Purity and determinism hold by
construction: `getContestWindow` is a function of the instant alone. -/
theorem contestWindowSpec (t : Int) :
    (getContestWindow t).2 = (getContestWindow t).1 + CONTEST_DURATION_MS ∧
    isSundayTwenty (getContestWindow t).1 ∧
    (getContestWindow t).1 ≤ t ∧
    ∀ s : Int, isSundayTwenty s → s ≤ t → s ≤ (getContestWindow t).1 := by
  refine ⟨rfl, ?_, ?_, ?_⟩
  · simp only [getContestWindow, windowStart, utcDayIndex, getUTCDay, isSundayTwenty,
      CONTEST_START_HOUR_UTC, CONTEST_START_DAY_UTC, CONTEST_DURATION_MS,
      msPerDay, msPerHour]
    split_ifs <;> constructor <;> omega
  · simp only [getContestWindow, windowStart, utcDayIndex, getUTCDay,
      CONTEST_START_HOUR_UTC, CONTEST_START_DAY_UTC, CONTEST_DURATION_MS,
      msPerDay, msPerHour]
    split_ifs <;> omega
  · intro s hs hst
    obtain ⟨hs1, hs2⟩ : (s / msPerDay + 4) % 7 = 0 ∧ s % msPerDay = 20 * msPerHour := hs
    simp only [getContestWindow, windowStart, utcDayIndex, getUTCDay,
      CONTEST_START_HOUR_UTC, CONTEST_START_DAY_UTC, CONTEST_DURATION_MS,
      msPerDay, msPerHour] at *
    split_ifs <;> omega

/-! ## C1: capturing an already-captured ghost -/
/-- C1: the code accepts a capture whose target ghost has
`survivalFlag = false`.  `handleContestCapture` tests only
`ghostAssignment.role !== 'ghost'` and never reads `survival_flag`, so
the submission is not rejected with "not an active ghost": the capture
record is appended, the hunter's `captures` count becomes 1 and both
capture notifications are emitted — all contrary to the claim. -/
theorem captureOfCapturedGhostSucceeds :
    capturedGhostRow.survivalFlag = false ∧
    (handleContestCapture env0 "u1" "u2" (some "p1") "Capture them eating" dbC1).2
      = CaptureOutcome.ok ∧
    ((handleContestCapture env0 "u1" "u2" (some "p1") "Capture them eating" dbC1).1.captures.map
      (fun c => (c.hunterId, c.ghostId))) = [("u1", "u2")] ∧
    ((handleContestCapture env0 "u1" "u2" (some "p1") "Capture them eating" dbC1).1.inbox.map
      (fun m => m.type)) = ["contest_capture", "contest_captured"] ∧
    ∀ b ∈ (handleContestCapture env0 "u1" "u2" (some "p1") "Capture them eating" dbC1).1.assignments,
      b.userId = "u1" → b.captures = 1 := by decide

/-! ## C2: challenge mismatch -/
/-- C2 counterexample: a `/api/posts` request with the capture flag and
a wrong challenge IS rejected with the challenge-mismatch error, yet
the post row and the drop inbox message have already been inserted, so
persistent state is not left unchanged. -/
theorem postMismatchStillCreatesPost :
    dbC1.posts = [] ∧ dbC1.inbox = [] ∧
    (createPostRoute env0 "u1" "u2" "img" "" "public" true "wrong" dbC1).2
      = PostResponse.badRequest
          "This capture does not match the weekly contest challenge." ∧
    ((createPostRoute env0 "u1" "u2" "img" "" "public" true "wrong" dbC1).1.posts.map
      (fun p => (p.authorId, p.recipientId))) = [("u1", "u2")] ∧
    ((createPostRoute env0 "u1" "u2" "img" "" "public" true "wrong" dbC1).1.inbox.map
      (fun m => m.type)) = ["drop"] ∧
    (createPostRoute env0 "u1" "u2" "img" "" "public" true "wrong" dbC1).1.captures = []
    := by decide

/-! ## C3: repeated camping warnings -/
/-- C3 counterexample: the ghost's camping flag is already set, the new
update moves 0 km and arrives 7 hours after `lastMoveAt`, and the code
emits ANOTHER `contest_warning` (it never reads the current flag),
contrary to "no further contest_warning notification is emitted". -/
theorem campingWarningRepeats :
    campingGhostRow.campingViolation = true ∧ dbC3.inbox = [] ∧
    ((handleContestLocationUpdate envT "u2" 1 1 dbC3).inbox.map (fun m => m.type))
      = ["contest_warning"] := by decide

/-! ## C4: null stored coordinates -/
/-- C4 counterexample: with NULL stored coordinates the computed
distance is `Infinity`, and JS `Infinity > 0.1` is true — the
exceeds-0.1-km movement branch IS taken: the set camping flag is
cleared and `lastMoveAt` is reset to now, contrary to the claim. -/
theorem nullCoordsClearCamping :
    nullLocGhostRow.lastLocationLat = none ∧
    nullLocGhostRow.campingViolation = true ∧
    nullLocGhostRow.lastMoveAt = some 1791748800000 ∧
    (handleContestLocationUpdate envT "u2" 1 1 dbC4).assignments
      = [({ nullLocGhostRow with
              campingViolation := false,
              lastLocationLat := some 1, lastLocationLng := some 1,
              lastMoveAt := some (1791748800000 + 7 * 3600000) } : Assignment)] ∧
    (handleContestLocationUpdate envT "u2" 1 1 dbC4).inbox = [] := by decide

/-! ## Frame lemmas: what the sync and the registry leave untouched -/
theorem sync_frame (env : Env) (c : String) (db : Db) :
    (syncContestAssignments env c db).users = db.users ∧
    (syncContestAssignments env c db).contestWeeks = db.contestWeeks ∧
    (syncContestAssignments env c db).captures = db.captures ∧
    (syncContestAssignments env c db).inbox = db.inbox ∧
    (syncContestAssignments env c db).posts = db.posts ∧
    (syncContestAssignments env c db).nextId = db.nextId :=
  ⟨rfl, rfl, rfl, rfl, rfl, rfl⟩

theorem ensure_frame (env : Env) (db : Db) :
    (ensureActiveContest env db).2.users = db.users ∧
    (ensureActiveContest env db).2.captures = db.captures ∧
    (ensureActiveContest env db).2.inbox = db.inbox ∧
    (ensureActiveContest env db).2.posts = db.posts := by
  unfold ensureActiveContest
  cases hfind : db.contestWeeks.find?
      (fun c => decide (c.startsAt = (getContestWindow env.now).1)) <;>
    simp only [hfind] <;>
    exact ⟨(sync_frame ..).1, (sync_frame ..).2.2.1, (sync_frame ..).2.2.2.1,
      (sync_frame ..).2.2.2.2.1⟩

/-- C2 amended: on a challenge mismatch the capture validator rejects
the submission with the challenge-mismatch outcome and itself writes
nothing: the resulting state is exactly what `ensureActiveContest`
produced, whose captures, inbox and posts are those of the initial
state (only week creation and assignment sync may write).  The post row
and its drop message of the carrying `/api/posts` request, however, are
inserted before validation and survive the rejection, as the
counterexample shows. -/
theorem captureMismatchNoWrites (env : Env) (db : Db) (hunterId ghostId : String)
    (postId : Option String) (challenge : String)
    (hc : (ensureActiveContest env db).1.challenge ≠ challenge) :
    handleContestCapture env hunterId ghostId postId challenge db
      = ((ensureActiveContest env db).2, CaptureOutcome.challengeMismatch) ∧
    (ensureActiveContest env db).2.captures = db.captures ∧
    (ensureActiveContest env db).2.inbox = db.inbox ∧
    (ensureActiveContest env db).2.posts = db.posts := by
  refine ⟨?_, (ensure_frame env db).2.1, (ensure_frame env db).2.2.1,
    (ensure_frame env db).2.2.2⟩
  unfold handleContestCapture
  rw [if_pos hc]

/-- C2 witness: the concrete mismatch scenario of the counterexample,
fed through the amended theorem. -/
theorem captureMismatchNoWritesWitness :
    handleContestCapture env0 "u1" "u2" (some "p1") "wrong" dbC1
      = ((ensureActiveContest env0 dbC1).2, CaptureOutcome.challengeMismatch) ∧
    (ensureActiveContest env0 dbC1).2.captures = dbC1.captures ∧
    (ensureActiveContest env0 dbC1).2.inbox = dbC1.inbox ∧
    (ensureActiveContest env0 dbC1).2.posts = dbC1.posts :=
  captureMismatchNoWrites env0 dbC1 "u1" "u2" (some "p1") "wrong" (by decide)

/-- Rows produced by the location write followed by the
camping-flag-setting update: any row matching the key ends with
`campingViolation = true`. -/
theorem camping_set_map (cid uid : String) (lat lng : Coord) (now : Int)
    (l : List Assignment) (b : Assignment)
    (hb : b ∈ (l.map (fun a => if keyMatch cid uid a then
        { a with
            lastLocationLat := some lat, lastLocationLng := some lng,
            lastMoveAt := some (a.lastMoveAt.getD now) } else a)).map
      (fun a => if keyMatch cid uid a then { a with campingViolation := true } else a))
    (hkb : keyMatch cid uid b = true) : b.campingViolation = true := by
  rw [List.map_map] at hb
  obtain ⟨b0, hb0, hbe⟩ := List.mem_map.1 hb
  simp only [Function.comp_apply] at hbe
  by_cases h0 : keyMatch cid uid b0 = true
  · rw [if_pos h0] at hbe
    have h1 : keyMatch cid uid
        ({ b0 with
            lastLocationLat := some lat, lastLocationLng := some lng,
            lastMoveAt := some (b0.lastMoveAt.getD now) } : Assignment) = true := h0
    rw [if_pos h1] at hbe
    rw [← hbe]
  · rw [if_neg h0] at hbe
    rw [if_neg h0] at hbe
    rw [← hbe] at hkb
    exact absurd hkb h0

/-- Rows produced by the location write followed by the movement-branch
update: any row matching the key ends with the camping flag cleared and
`lastMoveAt = now`. -/
theorem camping_clear_map (cid uid : String) (lat lng : Coord) (now : Int)
    (l : List Assignment) (b : Assignment)
    (hb : b ∈ (l.map (fun a => if keyMatch cid uid a then
        { a with
            lastLocationLat := some lat, lastLocationLng := some lng,
            lastMoveAt := some (a.lastMoveAt.getD now) } else a)).map
      (fun a => if keyMatch cid uid a then
        { a with campingViolation := false, lastMoveAt := some now } else a))
    (hkb : keyMatch cid uid b = true) :
    b.campingViolation = false ∧ b.lastMoveAt = some now := by
  rw [List.map_map] at hb
  obtain ⟨b0, hb0, hbe⟩ := List.mem_map.1 hb
  simp only [Function.comp_apply] at hbe
  by_cases h0 : keyMatch cid uid b0 = true
  · rw [if_pos h0] at hbe
    have h1 : keyMatch cid uid
        ({ b0 with
            lastLocationLat := some lat, lastLocationLng := some lng,
            lastMoveAt := some (b0.lastMoveAt.getD now) } : Assignment) = true := h0
    rw [if_pos h1] at hbe
    rw [← hbe]
    exact ⟨rfl, rfl⟩
  · rw [if_neg h0] at hbe
    rw [if_neg h0] at hbe
    rw [← hbe] at hkb
    exact absurd hkb h0

/-- C3 amended: when a ghost's update moves at most 0.1 km and arrives
more than 6 hours after `lastMoveAt`, exactly one `contest_warning` is
appended and the camping flag is set — on EVERY such update, with no
condition on the flag's current value (the code never reads it), so a
camping episode draws one warning per stale update rather than one per
episode. -/
theorem campingWarningEveryStaleUpdate (env : Env) (db : Db) (userId : String)
    (lat lng : Coord) (a : Assignment)
    (hfind : (ensureActiveContest env db).2.assignments.find?
      (keyMatch (ensureActiveContest env db).1.id userId) = some a)
    (hrole : a.role = "ghost")
    (hdist : (distanceKm env a.lastLocationLat a.lastLocationLng (some lat)
      (some lng)).gtThan CONTEST_CAMPING_DISTANCE_KM = false)
    (hstale : env.now - jsFalsyOr a.lastMoveAt env.now > CONTEST_CAMPING_THRESHOLD_MS) :
    (handleContestLocationUpdate env userId lat lng db).inbox
      = (ensureActiveContest env db).2.inbox ++
        [{ id := env.idGen (ensureActiveContest env db).2.nextId,
           recipientId := userId, postId := none, senderId := userId,
           createdAt := env.now, read := false, type := "contest_warning",
           message := some campingWarningText }] ∧
    ∀ b ∈ (handleContestLocationUpdate env userId lat lng db).assignments,
      keyMatch (ensureActiveContest env db).1.id userId b = true →
      b.campingViolation = true := by
  have hred : handleContestLocationUpdate env userId lat lng db
      = ghostBranch env (ensureActiveContest env db).1.id userId lat lng a
          (recordLocation (ensureActiveContest env db).1.id userId lat lng env.now
            (ensureActiveContest env db).2) := by
    simp only [handleContestLocationUpdate, hfind, hrole]
    simp
  have hbr : ghostBranch env (ensureActiveContest env db).1.id userId lat lng a
      (recordLocation (ensureActiveContest env db).1.id userId lat lng env.now
        (ensureActiveContest env db).2)
      = createInboxEntry env
          { recordLocation (ensureActiveContest env db).1.id userId lat lng env.now
              (ensureActiveContest env db).2 with
              assignments := (recordLocation (ensureActiveContest env db).1.id userId
                lat lng env.now (ensureActiveContest env db).2).assignments.map
                (fun b => if keyMatch (ensureActiveContest env db).1.id userId b then
                  { b with campingViolation := true } else b) }
          userId userId none "contest_warning" (some campingWarningText) env.now := by
    unfold ghostBranch
    simp only [hdist, Bool.false_eq_true, if_false]
    rw [if_pos hstale]
  rw [hred, hbr]
  refine ⟨rfl, ?_⟩
  intro b hb hkb
  have hb2 : b ∈ ((ensureActiveContest env db).2.assignments.map
      (fun a => if keyMatch (ensureActiveContest env db).1.id userId a then
        { a with
            lastLocationLat := some lat, lastLocationLng := some lng,
            lastMoveAt := some (a.lastMoveAt.getD env.now) } else a)).map
      (fun a => if keyMatch (ensureActiveContest env db).1.id userId a then
        { a with campingViolation := true } else a) := hb
  exact camping_set_map _ _ lat lng env.now _ b hb2 hkb

/-- C3 witness: the ghost of `dbC3` already has the flag set, moves
0 km and is 7 hours stale; the theorem applies and yields one more
warning. -/
theorem campingWarningEveryStaleUpdateWitness :
    (handleContestLocationUpdate envT "u2" 1 1 dbC3).inbox
      = (ensureActiveContest envT dbC3).2.inbox ++
        [{ id := envT.idGen (ensureActiveContest envT dbC3).2.nextId,
           recipientId := "u2", postId := none, senderId := "u2",
           createdAt := envT.now, read := false, type := "contest_warning",
           message := some campingWarningText }] ∧
    ∀ b ∈ (handleContestLocationUpdate envT "u2" 1 1 dbC3).assignments,
      keyMatch (ensureActiveContest envT dbC3).1.id "u2" b = true →
      b.campingViolation = true :=
  campingWarningEveryStaleUpdate envT dbC3 "u2" 1 1 campingGhostRow
    (by decide) (by decide) (by decide) (by decide)

/-- C4 amended: with a `null` stored coordinate the computed distance
is infinite; an infinite distance never satisfies the proximity check
(`Infinity <= 0.3` is false) but DOES satisfy the camping movement
check (`Infinity > 0.1` is true), so the update takes the
exceeds-0.1-km branch: it clears `campingViolation`, resets
`lastMoveAt` to now, and emits no warning. -/
theorem infiniteDistanceMovementBranch (env : Env) (db : Db) (userId : String)
    (lat lng : Coord) (a : Assignment)
    (hfind : (ensureActiveContest env db).2.assignments.find?
      (keyMatch (ensureActiveContest env db).1.id userId) = some a)
    (hrole : a.role = "ghost")
    (hnull : a.lastLocationLat = none ∨ a.lastLocationLng = none) :
    distanceKm env a.lastLocationLat a.lastLocationLng (some lat) (some lng)
      = Dist.infinite ∧
    Dist.infinite.leThan CONTEST_PROXIMITY_KM = false ∧
    Dist.infinite.gtThan CONTEST_CAMPING_DISTANCE_KM = true ∧
    (handleContestLocationUpdate env userId lat lng db).inbox
      = (ensureActiveContest env db).2.inbox ∧
    ∀ b ∈ (handleContestLocationUpdate env userId lat lng db).assignments,
      keyMatch (ensureActiveContest env db).1.id userId b = true →
      b.campingViolation = false ∧ b.lastMoveAt = some env.now := by
  have hinf : distanceKm env a.lastLocationLat a.lastLocationLng (some lat)
      (some lng) = Dist.infinite := by
    rcases hnull with h | h <;> rw [h] <;> unfold distanceKm <;>
      cases a.lastLocationLat <;> cases a.lastLocationLng <;> rfl
  have hred : handleContestLocationUpdate env userId lat lng db
      = ghostBranch env (ensureActiveContest env db).1.id userId lat lng a
          (recordLocation (ensureActiveContest env db).1.id userId lat lng env.now
            (ensureActiveContest env db).2) := by
    simp only [handleContestLocationUpdate, hfind, hrole]
    simp
  have hbr : ghostBranch env (ensureActiveContest env db).1.id userId lat lng a
      (recordLocation (ensureActiveContest env db).1.id userId lat lng env.now
        (ensureActiveContest env db).2)
      = { recordLocation (ensureActiveContest env db).1.id userId lat lng env.now
            (ensureActiveContest env db).2 with
            assignments := (recordLocation (ensureActiveContest env db).1.id userId
              lat lng env.now (ensureActiveContest env db).2).assignments.map
              (fun b => if keyMatch (ensureActiveContest env db).1.id userId b then
                { b with campingViolation := false, lastMoveAt := some env.now }
              else b) } := by
    unfold ghostBranch
    rw [hinf]
    rfl
  refine ⟨hinf, rfl, rfl, ?_, ?_⟩
  · rw [hred, hbr]
    rfl
  · intro b hb hkb
    rw [hred, hbr] at hb
    have hb2 : b ∈ ((ensureActiveContest env db).2.assignments.map
        (fun a => if keyMatch (ensureActiveContest env db).1.id userId a then
          { a with
              lastLocationLat := some lat, lastLocationLng := some lng,
              lastMoveAt := some (a.lastMoveAt.getD env.now) } else a)).map
        (fun a => if keyMatch (ensureActiveContest env db).1.id userId a then
          { a with campingViolation := false, lastMoveAt := some env.now }
          else a) := hb
    exact camping_clear_map _ _ lat lng env.now _ b hb2 hkb

/-- C4 witness: the camping-flagged ghost of `dbC4` with NULL stored
coordinates; the theorem applies: the flag is cleared and `lastMoveAt`
reset. -/
theorem infiniteDistanceMovementBranchWitness :
    distanceKm envT nullLocGhostRow.lastLocationLat nullLocGhostRow.lastLocationLng
      (some 1) (some 1) = Dist.infinite ∧
    Dist.infinite.leThan CONTEST_PROXIMITY_KM = false ∧
    Dist.infinite.gtThan CONTEST_CAMPING_DISTANCE_KM = true ∧
    (handleContestLocationUpdate envT "u2" 1 1 dbC4).inbox
      = (ensureActiveContest envT dbC4).2.inbox ∧
    ∀ b ∈ (handleContestLocationUpdate envT "u2" 1 1 dbC4).assignments,
      keyMatch (ensureActiveContest envT dbC4).1.id "u2" b = true →
      b.campingViolation = false ∧ b.lastMoveAt = some envT.now :=
  infiniteDistanceMovementBranch envT dbC4 "u2" 1 1 nullLocGhostRow
    (by decide) (by decide) (Or.inl rfl)

theorem get_cons_set_perm : ∀ (t : List α) (m : Nat) (h : m < t.length) (a : α),
    (t.get ⟨m, h⟩ :: t.set m a).Perm (a :: t)
  | b :: s, 0, _, a => List.Perm.swap a b s
  | b :: s, m + 1, h, a => by
    show (s.get ⟨m, _⟩ :: b :: s.set m a).Perm (a :: b :: s)
    exact ((List.Perm.swap b (s.get ⟨m, Nat.lt_of_succ_lt_succ h⟩) (s.set m a)).trans
      ((get_cons_set_perm s m (Nat.lt_of_succ_lt_succ h) a).cons b)).trans
      (List.Perm.swap a b s)

theorem set_set_perm : ∀ (l : List α) (i j : Nat) (hi : i < l.length)
    (hj : j < l.length),
    ((l.set i (l.get ⟨j, hj⟩)).set j (l.get ⟨i, hi⟩)).Perm l
  | b :: s, 0, 0, _, _ => by
    show ((b :: s).set 0 b).Perm (b :: s)
    exact List.Perm.refl _
  | b :: s, 0, m + 1, hi, hj => by
    show (s.get ⟨m, _⟩ :: s.set m b).Perm (b :: s)
    exact get_cons_set_perm s m (Nat.lt_of_succ_lt_succ hj) b
  | b :: s, k + 1, 0, hi, hj => by
    show (s.get ⟨k, _⟩ :: s.set k b).Perm (b :: s)
    exact get_cons_set_perm s k (Nat.lt_of_succ_lt_succ hi) b
  | b :: s, k + 1, m + 1, hi, hj => by
    show (b :: (s.set k (s.get ⟨m, _⟩)).set m (s.get ⟨k, _⟩)).Perm (b :: s)
    exact (set_set_perm s k m (Nat.lt_of_succ_lt_succ hi)
      (Nat.lt_of_succ_lt_succ hj)).cons b

theorem listSwap_perm (l : List α) (i j : Nat) : (listSwap l i j).Perm l := by
  unfold listSwap
  cases h1 : l.get? i with
  | none => exact List.Perm.refl l
  | some x =>
    cases h2 : l.get? j with
    | none => exact List.Perm.refl l
    | some y =>
      have hi : i < l.length := List.get?_eq_some.1 h1 |>.1
      have hj : j < l.length := List.get?_eq_some.1 h2 |>.1
      have hx : l.get ⟨i, hi⟩ = x := (List.get?_eq_some.1 h1).2
      have hy : l.get ⟨j, hj⟩ = y := (List.get?_eq_some.1 h2).2
      rw [← hx, ← hy]
      exact set_set_perm l i j hi hj

theorem shuffleGo_perm (rand : Nat → Nat) : ∀ (n : Nat) (l : List α),
    (shuffleGo rand n l).Perm l
  | 0, l => List.Perm.refl l
  | n + 1, l =>
    (shuffleGo_perm rand n (listSwap l (n + 1) (rand (n + 1)))).trans
      (listSwap_perm l (n + 1) (rand (n + 1)))

theorem shuffle_perm (rand : Nat → Nat) (l : List α) : (shuffle rand l).Perm l :=
  shuffleGo_perm rand (l.length - 1) l

theorem filter_map_all (p : β → Bool) (f : α → β) (l : List α)
    (h : ∀ a, p (f a) = true) : (l.map f).filter p = l.map f := by
  induction l with
  | nil => rfl
  | cons a t ih => simp [h, ih]

theorem filter_map_none (p : β → Bool) (f : α → β) (l : List α)
    (h : ∀ a, p (f a) = false) : (l.map f).filter p = [] := by
  induction l with
  | nil => rfl
  | cons a t ih => simp [h, ih]

theorem retract_contest_nil (contestId : String) (users : List User)
    (assignments : List Assignment)
    (h : assignments.filter (fun a => decide (a.contestId = contestId)) = []) :
    (retract contestId users assignments).filter
      (fun a => decide (a.contestId = contestId)) = [] := by
  simp only [retract]
  split
  · exact h
  · rw [List.filter_comm]
    rw [h]
    rfl

theorem initialPartitionBalanced (env : Env) (contestId : String) (db : Db)
    (hempty : contestRows db contestId = []) :
    roleCount (contestRows (syncContestAssignments env contestId db) contestId)
        "hunter" = (eligibleCount db + 1) / 2 ∧
    roleCount (contestRows (syncContestAssignments env contestId db) contestId)
        "ghost" = eligibleCount db - (eligibleCount db + 1) / 2 ∧
    roleCount (contestRows (syncContestAssignments env contestId db) contestId)
        "ghost"
      ≤ roleCount (contestRows (syncContestAssignments env contestId db) contestId)
        "hunter" ∧
    roleCount (contestRows (syncContestAssignments env contestId db) contestId)
        "hunter"
      ≤ roleCount (contestRows (syncContestAssignments env contestId db) contestId)
        "ghost" + 1 ∧
    ∀ b ∈ contestRows (syncContestAssignments env contestId db) contestId,
      b.captures = 0 ∧ b.survivalFlag = true ∧ b.campingViolation = false ∧
      b.lastMoveAt = some env.now := by
  have hretr : (retract contestId db.users db.assignments).filter
      (fun a => decide (a.contestId = contestId)) = [] :=
    retract_contest_nil contestId db.users db.assignments hempty
  have hsync : (syncContestAssignments env contestId db).assignments
      = retract contestId db.users db.assignments
        ++ ((shuffle env.rand (db.users.filter (fun u => !u.bekandidEnabled))).take
            (((shuffle env.rand (db.users.filter (fun u => !u.bekandidEnabled))).length + 1) / 2)).map
          (fun u => newAssignment contestId u.id "hunter" env.now)
        ++ ((shuffle env.rand (db.users.filter (fun u => !u.bekandidEnabled))).drop
            (((shuffle env.rand (db.users.filter (fun u => !u.bekandidEnabled))).length + 1) / 2)).map
          (fun u => newAssignment contestId u.id "ghost" env.now) := by
    show syncedAssignments env contestId db = _
    simp only [syncedAssignments]
    rw [hretr]
    simp
  have hlen : (shuffle env.rand (db.users.filter (fun u => !u.bekandidEnabled))).length
      = eligibleCount db :=
    (shuffle_perm env.rand _).length_eq
  have hrows : contestRows (syncContestAssignments env contestId db) contestId
      = ((shuffle env.rand (db.users.filter (fun u => !u.bekandidEnabled))).take
            ((eligibleCount db + 1) / 2)).map
          (fun u => newAssignment contestId u.id "hunter" env.now)
        ++ ((shuffle env.rand (db.users.filter (fun u => !u.bekandidEnabled))).drop
            ((eligibleCount db + 1) / 2)).map
          (fun u => newAssignment contestId u.id "ghost" env.now) := by
    unfold contestRows
    rw [hsync, hlen, List.filter_append, List.filter_append, hretr,
      filter_map_all _ _ _ (fun u => by simp [newAssignment]),
      filter_map_all _ _ _ (fun u => by simp [newAssignment])]
    rfl
  rw [hrows]
  have htake : ((shuffle env.rand (db.users.filter (fun u => !u.bekandidEnabled))).take
      ((eligibleCount db + 1) / 2)).length = (eligibleCount db + 1) / 2 := by
    rw [List.length_take, hlen]
    omega
  have hdrop : ((shuffle env.rand (db.users.filter (fun u => !u.bekandidEnabled))).drop
      ((eligibleCount db + 1) / 2)).length = eligibleCount db - (eligibleCount db + 1) / 2 := by
    rw [List.length_drop, hlen]
  have hc1 : roleCount (((shuffle env.rand (db.users.filter (fun u => !u.bekandidEnabled))).take
            ((eligibleCount db + 1) / 2)).map
          (fun u => newAssignment contestId u.id "hunter" env.now)
        ++ ((shuffle env.rand (db.users.filter (fun u => !u.bekandidEnabled))).drop
            ((eligibleCount db + 1) / 2)).map
          (fun u => newAssignment contestId u.id "ghost" env.now)) "hunter"
      = (eligibleCount db + 1) / 2 := by
    unfold roleCount
    rw [List.filter_append,
      filter_map_all _ _ _ (fun u => by simp [newAssignment]),
      filter_map_none _ _ _ (fun u => by simp [newAssignment]),
      List.append_nil, List.length_map, htake]
  have hc2 : roleCount (((shuffle env.rand (db.users.filter (fun u => !u.bekandidEnabled))).take
            ((eligibleCount db + 1) / 2)).map
          (fun u => newAssignment contestId u.id "hunter" env.now)
        ++ ((shuffle env.rand (db.users.filter (fun u => !u.bekandidEnabled))).drop
            ((eligibleCount db + 1) / 2)).map
          (fun u => newAssignment contestId u.id "ghost" env.now)) "ghost"
      = eligibleCount db - (eligibleCount db + 1) / 2 := by
    unfold roleCount
    rw [List.filter_append,
      filter_map_none _ _ _ (fun u => by simp [newAssignment]),
      filter_map_all _ _ _ (fun u => by simp [newAssignment]),
      List.nil_append, List.length_map, hdrop]
  refine ⟨hc1, hc2, ?_, ?_, ?_⟩
  · rw [hc1, hc2]; omega
  · rw [hc1, hc2]; omega
  · intro b hb
    rcases List.mem_append.1 hb with h | h <;>
      obtain ⟨u, hu, rfl⟩ := List.mem_map.1 h <;>
      exact ⟨rfl, rfl, rfl, rfl⟩

/-- C7 witness: the two eligible users of `dbC7` are partitioned into
one hunter and one ghost with fresh fields. -/
theorem initialPartitionBalancedWitness :
    roleCount (contestRows (syncContestAssignments env0 "w0" dbC7) "w0")
        "hunter" = (eligibleCount dbC7 + 1) / 2 ∧
    roleCount (contestRows (syncContestAssignments env0 "w0" dbC7) "w0")
        "ghost" = eligibleCount dbC7 - (eligibleCount dbC7 + 1) / 2 ∧
    roleCount (contestRows (syncContestAssignments env0 "w0" dbC7) "w0") "ghost"
      ≤ roleCount (contestRows (syncContestAssignments env0 "w0" dbC7) "w0")
        "hunter" ∧
    roleCount (contestRows (syncContestAssignments env0 "w0" dbC7) "w0") "hunter"
      ≤ roleCount (contestRows (syncContestAssignments env0 "w0" dbC7) "w0")
        "ghost" + 1 ∧
    ∀ b ∈ contestRows (syncContestAssignments env0 "w0" dbC7) "w0",
      b.captures = 0 ∧ b.survivalFlag = true ∧ b.campingViolation = false ∧
      b.lastMoveAt = some env0.now :=
  initialPartitionBalanced env0 "w0" dbC7 (by decide)

theorem filter_all_eq (p : α → Bool) (l : List α) (h : ∀ a ∈ l, p a = true) :
    l.filter p = l := by
  induction l with
  | nil => rfl
  | cons a t ih =>
    rw [List.filter_cons, if_pos (h a (List.mem_cons_self a t)),
      ih (fun b hb => h b (List.mem_cons_of_mem a hb))]

theorem filter_none_eq (p : α → Bool) (l : List α) (h : ∀ a ∈ l, p a = false) :
    l.filter p = [] := by
  induction l with
  | nil => rfl
  | cons a t ih =>
    rw [List.filter_cons, h a (List.mem_cons_self a t)]
    exact ih (fun b hb => h b (List.mem_cons_of_mem a hb))

theorem pairwise_filter_le_one (p : α → Bool) (l : List α)
    (h : l.Pairwise (fun a b => ¬(p a = true ∧ p b = true))) :
    (l.filter p).length ≤ 1 := by
  induction l with
  | nil => exact Nat.zero_le 1
  | cons a t ih =>
    rw [List.pairwise_cons] at h
    rw [List.filter_cons]
    cases hpa : p a with
    | false => exact ih h.2
    | true =>
      have ht : t.filter p = [] :=
        filter_none_eq p t (fun b hb => by
          cases hpb : p b with
          | false => rfl
          | true => exact absurd ⟨hpa, hpb⟩ (h.1 b hb))
      simp [ht]

theorem filter_map_len (p : β → Bool) (f : α → β) (l : List α) :
    ((l.map f).filter p).length = (l.filter (fun a => p (f a))).length := by
  induction l with
  | nil => rfl
  | cons a t ih =>
    rw [List.map_cons, List.filter_cons, List.filter_cons]
    cases hpa : p (f a) <;> simp [hpa, ih]

theorem nodup_id_filter_single (l : List User) (u : User) (hu : u ∈ l)
    (hn : (l.map User.id).Nodup) :
    l.filter (fun p => decide (p.id = u.id)) = [u] := by
  induction l with
  | nil => exact absurd hu (List.not_mem_nil u)
  | cons a t ih =>
    rw [List.map_cons, List.nodup_cons] at hn
    rcases List.mem_cons.1 hu with rfl | hut
    · rw [List.filter_cons, if_pos (by simp)]
      have : t.filter (fun p => decide (p.id = u.id)) = [] :=
        filter_none_eq _ t (fun b hb => by
          have : b.id ≠ u.id := fun he => hn.1 (he ▸ List.mem_map_of_mem User.id hb)
          simp [this])
      rw [this]
    · have ha : a.id ≠ u.id := by
        intro he
        exact hn.1 (he.symm ▸ List.mem_map_of_mem User.id hut)
      rw [List.filter_cons, if_neg (by simp [ha])]
      exact ih hut hn.2

theorem keyMatch_newAssignment (cid uid pid role : String) (now : Int) :
    keyMatch cid uid (newAssignment cid pid role now) = decide (pid = uid) := by
  simp [keyMatch, newAssignment]

theorem assignIncremental_keyCount (now : Int) (cid uid : String) :
    ∀ (us : List User) (h g : Nat),
    ((assignIncremental now cid us h g).filter (keyMatch cid uid)).length
      = (us.filter (fun p => decide (p.id = uid))).length
  | [], _, _ => rfl
  | u :: rest, h, g => by
    unfold assignIncremental
    split <;>
      rw [List.filter_cons, List.filter_cons, keyMatch_newAssignment] <;>
      cases hd : decide (u.id = uid) <;>
      simp [assignIncremental_keyCount now cid uid rest]

theorem map_newAssignment_keyCount (cid uid role : String) (now : Int)
    (l : List User) :
    (((l.map (fun u => newAssignment cid u.id role now)).filter
      (keyMatch cid uid))).length
      = (l.filter (fun p => decide (p.id = uid))).length := by
  rw [filter_map_len]
  congr 1
  apply List.filter_congr
  intro p _
  exact keyMatch_newAssignment cid uid p.id role now

theorem nodup_id_inj (l : List User) (hn : (l.map User.id).Nodup)
    (p u : User) (hp : p ∈ l) (hu : u ∈ l) (he : p.id = u.id) : p = u := by
  have hs := nodup_id_filter_single l u hu hn
  have hpf : p ∈ l.filter (fun v => decide (v.id = u.id)) :=
    List.mem_filter.2 ⟨hp, by simp [he]⟩
  rw [hs] at hpf
  exact List.mem_singleton.1 hpf

theorem retract_keyCount_eligible (cid : String) (users : List User)
    (asg : List Assignment) (u : User) (hu : u ∈ users)
    (hne : u.bekandidEnabled = false)
    (hn : (users.map User.id).Nodup) :
    (retract cid users asg).filter (keyMatch cid u.id)
      = asg.filter (keyMatch cid u.id) := by
  simp only [retract]
  split
  · rfl
  · rw [List.filter_comm]
    apply filter_all_eq
    intro a ha
    rw [List.mem_filter] at ha
    have hauid : a.userId = u.id := by
      have h2 := of_decide_eq_true ha.2
      exact h2.2
    have hany : ∀ v ∈ users.filter (fun w => w.bekandidEnabled),
        decide (v.id = a.userId) = false := by
      intro v hv
      rw [List.mem_filter] at hv
      have hvne : v ≠ u := by
        intro he
        rw [he, hne] at hv
        exact Bool.false_ne_true hv.2
      have : v.id ≠ u.id := fun he => hvne (nodup_id_inj users hn v u hv.1 hu he)
      simp [hauid, this]
    simp only [Bool.not_eq_eq_eq_not, Bool.not_true, Bool.and_eq_false_imp]
    intro _
    rw [List.any_eq_false]
    intro v hv
    simp [hany v hv]

theorem retract_keyCount_bek (cid : String) (users : List User)
    (asg : List Assignment) (u : User) (hu : u ∈ users)
    (hbek : u.bekandidEnabled = true) :
    (retract cid users asg).filter (keyMatch cid u.id) = [] := by
  have hmem : u ∈ users.filter (fun v => v.bekandidEnabled) :=
    List.mem_filter.2 ⟨hu, hbek⟩
  simp only [retract]
  split
  · next hvac =>
    rw [List.isEmpty_iff] at hvac
    rw [hvac] at hmem
    exact absurd hmem (List.not_mem_nil u)
  · apply filter_none_eq
    intro a ha
    rw [List.mem_filter] at ha
    cases hk : keyMatch cid u.id a with
    | false => rfl
    | true =>
      exfalso
      have h2 := of_decide_eq_true hk
      have : (users.filter (fun w => w.bekandidEnabled)).any
          (fun v => decide (v.id = a.userId)) = true := by
        rw [List.any_eq_true]
        exact ⟨u, hmem, by simp [h2.2]⟩
      have hkeep := ha.2
      rw [Bool.not_eq_eq_eq_not, Bool.not_true, Bool.and_eq_false_iff] at hkeep
      rcases hkeep with h | h
      · rw [decide_eq_false_iff_not] at h
        exact h h2.1
      · rw [this] at h
        exact absurd h (by simp)

theorem take_drop_filter_len (p : α → Bool) (l : List α) (n : Nat) :
    ((l.take n).filter p).length + ((l.drop n).filter p).length
      = (l.filter p).length := by
  conv_rhs => rw [← List.take_append_drop n l]
  rw [List.filter_append, List.length_append]

/-- C5: after any run of the sync against a contest, every eligible
(not opted-out) user has exactly one assignment row in that contest and
no opted-out user retains one.  The hypotheses are the storage
invariants the schema enforces: user ids are unique, and
(contest_id, user_id) is the assignment table's key. -/
theorem syncExactlyOneAssignment (env : Env) (contestId : String) (db : Db)
    (hnodup : (db.users.map User.id).Nodup)
    (hkey : db.assignments.Pairwise
      (fun a b => a.contestId ≠ b.contestId ∨ a.userId ≠ b.userId)) :
    ∀ u ∈ db.users,
      ((syncContestAssignments env contestId db).assignments.filter
        (keyMatch contestId u.id)).length
        = if u.bekandidEnabled then 0 else 1 := by
  intro u hu
  have hkeyu : db.assignments.Pairwise (fun a b =>
      ¬(keyMatch contestId u.id a = true ∧ keyMatch contestId u.id b = true)) := by
    refine hkey.imp ?_
    intro a b hab ⟨ha, hb⟩
    have ha2 := of_decide_eq_true ha
    have hb2 := of_decide_eq_true hb
    rcases hab with h | h
    · exact h (ha2.1.trans hb2.1.symm)
    · exact h (ha2.2.trans hb2.2.symm)
  have hPn : ((db.users.filter (fun v => !v.bekandidEnabled)).map User.id).Nodup :=
    hnodup.sublist ((List.filter_sublist db.users).map User.id)
  have hgoal : (syncContestAssignments env contestId db).assignments
      = syncedAssignments env contestId db := rfl
  rw [hgoal]
  by_cases hE : ((retract contestId db.users db.assignments).filter
      (fun a => decide (a.contestId = contestId))).isEmpty = true
  · -- initial partition branch
    have hform : syncedAssignments env contestId db
        = retract contestId db.users db.assignments
          ++ ((shuffle env.rand (db.users.filter (fun v => !v.bekandidEnabled))).take
              (((shuffle env.rand (db.users.filter (fun v => !v.bekandidEnabled))).length + 1) / 2)).map
            (fun p => newAssignment contestId p.id "hunter" env.now)
          ++ ((shuffle env.rand (db.users.filter (fun v => !v.bekandidEnabled))).drop
              (((shuffle env.rand (db.users.filter (fun v => !v.bekandidEnabled))).length + 1) / 2)).map
            (fun p => newAssignment contestId p.id "ghost" env.now) := by
      simp only [syncedAssignments]
      rw [if_pos hE]
    rw [hform, List.filter_append, List.filter_append, List.length_append,
      List.length_append]
    have hEnil : (retract contestId db.users db.assignments).filter
        (fun a => decide (a.contestId = contestId)) = [] := List.isEmpty_iff.1 hE
    have hA1 : ((retract contestId db.users db.assignments).filter
        (keyMatch contestId u.id)).length = 0 := by
      rw [filter_none_eq]
      · rfl
      · intro a ha
        cases hk : keyMatch contestId u.id a with
        | false => rfl
        | true =>
          exfalso
          have h2 := of_decide_eq_true hk
          have : a ∈ (retract contestId db.users db.assignments).filter
              (fun b => decide (b.contestId = contestId)) :=
            List.mem_filter.2 ⟨ha, by simp [h2.1]⟩
          rw [hEnil] at this
          exact absurd this (List.not_mem_nil a)
    have hshuf : ((shuffle env.rand (db.users.filter (fun v => !v.bekandidEnabled))).filter
        (fun p => decide (p.id = u.id))).length
        = ((db.users.filter (fun v => !v.bekandidEnabled)).filter
            (fun p => decide (p.id = u.id))).length :=
      ((shuffle_perm env.rand _).filter _).length_eq
    rw [hA1, map_newAssignment_keyCount, map_newAssignment_keyCount,
      Nat.zero_add, take_drop_filter_len, hshuf]
    by_cases hbek : u.bekandidEnabled = true
    · rw [if_pos hbek]
      have h0 : (db.users.filter (fun v => !v.bekandidEnabled)).filter
          (fun p => decide (p.id = u.id)) = [] := by
        apply filter_none_eq
        intro p hp
        rw [List.mem_filter] at hp
        have hpu : p ≠ u := by
          intro he
          rw [he, hbek] at hp
          simp at hp
        have : p.id ≠ u.id := fun he => hpu (nodup_id_inj db.users hnodup p u hp.1 hu he)
        simp [this]
      rw [h0]
      rfl
    · have hbf : u.bekandidEnabled = false := by
        cases h : u.bekandidEnabled
        · rfl
        · exact absurd h hbek
      rw [if_neg hbek,
        nodup_id_filter_single (db.users.filter (fun v => !v.bekandidEnabled)) u
          (List.mem_filter.2 ⟨hu, by simp [hbf]⟩) hPn]
      rfl
  · -- incremental branch
    have hform : syncedAssignments env contestId db
        = retract contestId db.users db.assignments
          ++ assignIncremental env.now contestId
            ((db.users.filter (fun v => !v.bekandidEnabled)).filter
              (fun p => !(((retract contestId db.users db.assignments).filter
                (fun a => decide (a.contestId = contestId))).any
                (fun a => decide (a.userId = p.id)))))
            (((retract contestId db.users db.assignments).filter
              (fun a => decide (a.contestId = contestId))).filter
              (fun a => decide (a.role = "hunter"))).length
            (((retract contestId db.users db.assignments).filter
              (fun a => decide (a.contestId = contestId))).filter
              (fun a => decide (a.role = "ghost"))).length := by
      simp only [syncedAssignments]
      rw [if_neg hE]
    rw [hform, List.filter_append, List.length_append, assignIncremental_keyCount]
    by_cases hbek : u.bekandidEnabled = true
    · rw [if_pos hbek]
      have hA1 : ((retract contestId db.users db.assignments).filter
          (keyMatch contestId u.id)).length = 0 := by
        rw [retract_keyCount_bek contestId db.users db.assignments u hu hbek]
        rfl
      have hP0 : (db.users.filter (fun v => !v.bekandidEnabled)).filter
          (fun p => decide (p.id = u.id)) = [] := by
        apply filter_none_eq
        intro p hp
        rw [List.mem_filter] at hp
        have hpu : p ≠ u := by
          intro he
          rw [he, hbek] at hp
          simp at hp
        have : p.id ≠ u.id := fun he => hpu (nodup_id_inj db.users hnodup p u hp.1 hu he)
        simp [this]
      rw [hA1, List.filter_comm, hP0]
      rfl
    · rw [if_neg hbek]
      have hbf : u.bekandidEnabled = false := by
        cases h : u.bekandidEnabled
        · rfl
        · exact absurd h hbek
      have huP : u ∈ db.users.filter (fun v => !v.bekandidEnabled) :=
        List.mem_filter.2 ⟨hu, by simp [hbf]⟩
      have hPu : (db.users.filter (fun v => !v.bekandidEnabled)).filter
          (fun p => decide (p.id = u.id)) = [u] :=
        nodup_id_filter_single _ u huP hPn
      have hretr := retract_keyCount_eligible contestId db.users db.assignments u hu
        hbf hnodup
      by_cases hass : ((retract contestId db.users db.assignments).filter
          (fun a => decide (a.contestId = contestId))).any
          (fun a => decide (a.userId = u.id)) = true
      · -- u already assigned: retained row counts 1, nothing inserted
        have h2 : ((db.users.filter (fun v => !v.bekandidEnabled)).filter
            (fun p => !(((retract contestId db.users db.assignments).filter
              (fun a => decide (a.contestId = contestId))).any
              (fun a => decide (a.userId = p.id))))).filter
            (fun p => decide (p.id = u.id)) = [] := by
          rw [List.filter_comm, hPu]
          rw [List.filter_cons]
          rw [if_neg]
          · rfl
          · simp only [hass, Bool.not_true]
            exact fun h => Bool.false_ne_true h
        have hle : ((retract contestId db.users db.assignments).filter
            (keyMatch contestId u.id)).length ≤ 1 := by
          rw [hretr]
          exact pairwise_filter_le_one _ _ hkeyu
        have hge : 1 ≤ ((retract contestId db.users db.assignments).filter
            (keyMatch contestId u.id)).length := by
          rw [List.any_eq_true] at hass
          obtain ⟨r, hrE, hruid⟩ := hass
          rw [List.mem_filter] at hrE
          have hkr : keyMatch contestId u.id r = true := by
            have h1 := of_decide_eq_true hrE.2
            have h2r := of_decide_eq_true hruid
            exact decide_eq_true ⟨h1, h2r⟩
          have : r ∈ (retract contestId db.users db.assignments).filter
              (keyMatch contestId u.id) := List.mem_filter.2 ⟨hrE.1, hkr⟩
          exact List.length_pos.2 (List.ne_nil_of_mem this)
        rw [h2, List.length_nil]
        omega
      · -- u not yet assigned: no retained row, one inserted row
        have hass2 : ((retract contestId db.users db.assignments).filter
            (fun a => decide (a.contestId = contestId))).any
            (fun a => decide (a.userId = u.id)) = false := by
          cases h : ((retract contestId db.users db.assignments).filter
              (fun a => decide (a.contestId = contestId))).any
              (fun a => decide (a.userId = u.id))
          · rfl
          · exact absurd h hass
        have hA1 : ((retract contestId db.users db.assignments).filter
            (keyMatch contestId u.id)).length = 0 := by
          rw [filter_none_eq]
          · rfl
          · intro a ha
            cases hk : keyMatch contestId u.id a with
            | false => rfl
            | true =>
              exfalso
              have h2 := of_decide_eq_true hk
              have hmem : a ∈ (retract contestId db.users db.assignments).filter
                  (fun b => decide (b.contestId = contestId)) :=
                List.mem_filter.2 ⟨ha, by simp [h2.1]⟩
              have : ((retract contestId db.users db.assignments).filter
                  (fun b => decide (b.contestId = contestId))).any
                  (fun b => decide (b.userId = u.id)) = true := by
                rw [List.any_eq_true]
                exact ⟨a, hmem, by simp [h2.2]⟩
              rw [this] at hass2
              exact absurd hass2 (by simp)
        have h2 : ((db.users.filter (fun v => !v.bekandidEnabled)).filter
            (fun p => !(((retract contestId db.users db.assignments).filter
              (fun a => decide (a.contestId = contestId))).any
              (fun a => decide (a.userId = p.id))))).filter
            (fun p => decide (p.id = u.id)) = [u] := by
          rw [List.filter_comm, hPu]
          rw [List.filter_cons]
          rw [if_pos]
          · rfl
          · simp only [hass2, Bool.not_false]
        rw [hA1, h2]
        rfl

/-- C5 witness: in `dbC1` the eligible user u1 ends with exactly one
row of week w0. -/
theorem syncExactlyOneAssignmentWitness :
    ((syncContestAssignments env0 "w0" dbC1).assignments.filter
      (keyMatch "w0" hunterUser.id)).length
      = if hunterUser.bekandidEnabled then 0 else 1 :=
  syncExactlyOneAssignment env0 "w0" dbC1 (by decide) (by decide) hunterUser
    (by decide)

theorem eligible_any_bek_false (users : List User) (p : User)
    (hp : p ∈ users.filter (fun v => !v.bekandidEnabled))
    (hn : (users.map User.id).Nodup) :
    (users.filter (fun v => v.bekandidEnabled)).any
      (fun v => decide (v.id = p.id)) = false := by
  rw [List.any_eq_false]
  intro v hv
  rw [List.mem_filter] at hp hv
  have hvp : v ≠ p := by
    intro he
    rw [he] at hv
    rw [hv.2] at hp
    simp at hp
  have : v.id ≠ p.id := fun he => hvp (nodup_id_inj users hn v p hv.1 hp.1 he)
  simp [this]

theorem retract_append_new (cid : String) (users : List User)
    (asg news : List Assignment)
    (hnews : ∀ r ∈ news, (users.filter (fun v => v.bekandidEnabled)).any
      (fun v => decide (v.id = r.userId)) = false) :
    retract cid users (retract cid users asg ++ news)
      = retract cid users asg ++ news := by
  simp only [retract]
  split
  · rfl
  · rw [List.filter_append]
    congr 1
    · apply filter_all_eq
      intro a ha
      exact (List.mem_filter.1 ha).2
    · apply filter_all_eq
      intro r hr
      rw [hnews r hr]
      simp

theorem assignIncremental_mem (now : Int) (cid : String) :
    ∀ (us : List User) (h g : Nat) (p : User), p ∈ us →
      ∃ r ∈ assignIncremental now cid us h g, r.userId = p.id
  | u :: rest, h, g, p, hp => by
    unfold assignIncremental
    rcases List.mem_cons.1 hp with rfl | hrest
    · split <;> exact ⟨_, List.mem_cons_self _ _, rfl⟩
    · split
      · obtain ⟨r, hr, he⟩ := assignIncremental_mem now cid rest (h + 1) g p hrest
        exact ⟨r, List.mem_cons_of_mem _ hr, he⟩
      · obtain ⟨r, hr, he⟩ := assignIncremental_mem now cid rest h (g + 1) p hrest
        exact ⟨r, List.mem_cons_of_mem _ hr, he⟩

theorem assignIncremental_contest (now : Int) (cid : String) :
    ∀ (us : List User) (h g : Nat) (r : Assignment),
      r ∈ assignIncremental now cid us h g → r.contestId = cid
  | u :: rest, h, g, r, hr => by
    unfold assignIncremental at hr
    split at hr <;> rcases List.mem_cons.1 hr with rfl | h2 <;>
      first
        | rfl
        | exact assignIncremental_contest now cid rest _ _ r h2

theorem assignIncremental_userId (now : Int) (cid : String) :
    ∀ (us : List User) (h g : Nat) (r : Assignment),
      r ∈ assignIncremental now cid us h g → ∃ p ∈ us, r.userId = p.id
  | u :: rest, h, g, r, hr => by
    unfold assignIncremental at hr
    split at hr <;> rcases List.mem_cons.1 hr with rfl | h2
    · exact ⟨u, List.mem_cons_self _ _, rfl⟩
    · obtain ⟨p, hp, he⟩ := assignIncremental_userId now cid rest _ _ r h2
      exact ⟨p, List.mem_cons_of_mem _ hp, he⟩
    · exact ⟨u, List.mem_cons_self _ _, rfl⟩
    · obtain ⟨p, hp, he⟩ := assignIncremental_userId now cid rest _ _ r h2
      exact ⟨p, List.mem_cons_of_mem _ hp, he⟩

theorem syncedAssignments_noop (env2 : Env) (cid : String) (db2 : Db)
    (users : List User) (asg news : List Assignment)
    (husers : db2.users = users)
    (hasg : db2.assignments = retract cid users asg ++ news)
    (hcontest : ∀ r ∈ news, r.contestId = cid)
    (hbekfree : ∀ r ∈ news, (users.filter (fun v => v.bekandidEnabled)).any
        (fun v => decide (v.id = r.userId)) = false)
    (hcover : ∀ p ∈ users.filter (fun v => !v.bekandidEnabled),
        news.any (fun a => decide (a.userId = p.id)) = true
        ∨ ((retract cid users asg).filter (fun a => decide (a.contestId = cid))).any
          (fun a => decide (a.userId = p.id)) = true) :
    syncedAssignments env2 cid db2 = db2.assignments := by
  have hretr2 : retract cid db2.users db2.assignments = db2.assignments := by
    rw [husers, hasg]
    exact retract_append_new cid users asg news hbekfree
  have hE2eq : db2.assignments.filter (fun a => decide (a.contestId = cid))
      = (retract cid users asg).filter (fun a => decide (a.contestId = cid)) ++ news := by
    rw [hasg, List.filter_append,
      filter_all_eq _ news (fun r hr => by simp [hcontest r hr])]
  simp only [syncedAssignments]
  rw [hretr2, husers]
  by_cases hE2 : (db2.assignments.filter (fun a => decide (a.contestId = cid))).isEmpty
      = true
  · have hE2nil : db2.assignments.filter (fun a => decide (a.contestId = cid)) = [] :=
      List.isEmpty_iff.1 hE2
    have hPnil : users.filter (fun v => !v.bekandidEnabled) = [] := by
      cases hP : users.filter (fun v => !v.bekandidEnabled) with
      | nil => rfl
      | cons p rest =>
        exfalso
        have hpmem : p ∈ users.filter (fun v => !v.bekandidEnabled) := by
          rw [hP]
          exact List.mem_cons_self p rest
        have hnil2 : (retract cid users asg).filter
            (fun a => decide (a.contestId = cid)) ++ news = [] := by
          rw [← hE2eq]
          exact hE2nil
        rcases List.append_eq_nil.1 hnil2 with ⟨h1, h2⟩
        rcases hcover p hpmem with h | h
        · rw [h2] at h
          exact absurd h (by simp)
        · rw [h1] at h
          exact absurd h (by simp)
    rw [if_pos hE2, hPnil]
    simp [shuffle, shuffleGo]
  · rw [if_neg hE2]
    have htoA : (users.filter (fun v => !v.bekandidEnabled)).filter
        (fun p => !((db2.assignments.filter (fun a => decide (a.contestId = cid))).any
          (fun a => decide (a.userId = p.id)))) = [] := by
      apply filter_none_eq
      intro p hp
      have hany : (db2.assignments.filter (fun a => decide (a.contestId = cid))).any
          (fun a => decide (a.userId = p.id)) = true := by
        rw [hE2eq, List.any_append]
        rcases hcover p hp with h | h
        · rw [h]
          simp
        · rw [h]
          simp
      rw [hany]
      rfl
    rw [htoA]
    show db2.assignments ++ assignIncremental env2.now cid [] _ _ = db2.assignments
    simp [assignIncremental]

/-- C9: the sync is idempotent.  A second run against the same contest
with the same user population performs no writes: the resulting state,
assignment rows and all their fields included, is the state the first
run produced — whatever wall clock or shuffle draws the second run
sees.  The hypothesis is the schema's uniqueness of user ids. -/
theorem syncIdempotent (env env2 : Env) (contestId : String) (db : Db)
    (hnodup : (db.users.map User.id).Nodup) :
    syncContestAssignments env2 contestId (syncContestAssignments env contestId db)
      = syncContestAssignments env contestId db := by
  suffices h : syncedAssignments env2 contestId (syncContestAssignments env contestId db)
      = (syncContestAssignments env contestId db).assignments by
    show { syncContestAssignments env contestId db with
      assignments := syncedAssignments env2 contestId
        (syncContestAssignments env contestId db) }
      = syncContestAssignments env contestId db
    rw [h]
  by_cases hE1 : ((retract contestId db.users db.assignments).filter
      (fun a => decide (a.contestId = contestId))).isEmpty = true
  · -- first sync ran the initial partition
    have hform : (syncContestAssignments env contestId db).assignments
        = retract contestId db.users db.assignments
          ++ (((shuffle env.rand (db.users.filter (fun v => !v.bekandidEnabled))).take
              (((shuffle env.rand (db.users.filter (fun v => !v.bekandidEnabled))).length + 1) / 2)).map
            (fun p => newAssignment contestId p.id "hunter" env.now)
          ++ ((shuffle env.rand (db.users.filter (fun v => !v.bekandidEnabled))).drop
              (((shuffle env.rand (db.users.filter (fun v => !v.bekandidEnabled))).length + 1) / 2)).map
            (fun p => newAssignment contestId p.id "ghost" env.now)) := by
      show syncedAssignments env contestId db = _
      simp only [syncedAssignments]
      rw [if_pos hE1, List.append_assoc]
    refine syncedAssignments_noop env2 contestId _ db.users db.assignments _ rfl hform
      ?_ ?_ ?_
    · intro r hr
      rcases List.mem_append.1 hr with h | h <;>
        obtain ⟨p, hp, rfl⟩ := List.mem_map.1 h <;> rfl
    · intro r hr
      have : ∃ p ∈ shuffle env.rand (db.users.filter (fun v => !v.bekandidEnabled)),
          r.userId = p.id := by
        rcases List.mem_append.1 hr with h | h <;>
          obtain ⟨p, hp, rfl⟩ := List.mem_map.1 h
        · exact ⟨p, List.mem_of_mem_take hp, rfl⟩
        · exact ⟨p, List.mem_of_mem_drop hp, rfl⟩
      obtain ⟨p, hp, he⟩ := this
      have hpP : p ∈ db.users.filter (fun v => !v.bekandidEnabled) :=
        (shuffle_perm env.rand _).mem_iff.1 hp
      rw [he]
      exact eligible_any_bek_false db.users p hpP hnodup
    · intro p hp
      left
      have hp2 : p ∈ shuffle env.rand (db.users.filter (fun v => !v.bekandidEnabled)) :=
        (shuffle_perm env.rand _).mem_iff.2 hp
      rw [← List.take_append_drop
        (((shuffle env.rand (db.users.filter (fun v => !v.bekandidEnabled))).length + 1) / 2)
        (shuffle env.rand (db.users.filter (fun v => !v.bekandidEnabled)))] at hp2
      rw [List.any_eq_true]
      rcases List.mem_append.1 hp2 with h | h
      · exact ⟨newAssignment contestId p.id "hunter" env.now,
          List.mem_append_left _ (List.mem_map_of_mem _ h), by simp [newAssignment]⟩
      · exact ⟨newAssignment contestId p.id "ghost" env.now,
          List.mem_append_right _ (List.mem_map_of_mem _ h), by simp [newAssignment]⟩
  · -- first sync ran the incremental join
    have hform : (syncContestAssignments env contestId db).assignments
        = retract contestId db.users db.assignments
          ++ assignIncremental env.now contestId
            ((db.users.filter (fun v => !v.bekandidEnabled)).filter
              (fun p => !(((retract contestId db.users db.assignments).filter
                (fun a => decide (a.contestId = contestId))).any
                (fun a => decide (a.userId = p.id)))))
            (((retract contestId db.users db.assignments).filter
              (fun a => decide (a.contestId = contestId))).filter
              (fun a => decide (a.role = "hunter"))).length
            (((retract contestId db.users db.assignments).filter
              (fun a => decide (a.contestId = contestId))).filter
              (fun a => decide (a.role = "ghost"))).length := by
      show syncedAssignments env contestId db = _
      simp only [syncedAssignments]
      rw [if_neg hE1]
    refine syncedAssignments_noop env2 contestId _ db.users db.assignments _ rfl hform
      ?_ ?_ ?_
    · intro r hr
      exact assignIncremental_contest env.now contestId _ _ _ r hr
    · intro r hr
      obtain ⟨p, hp, he⟩ := assignIncremental_userId env.now contestId _ _ _ r hr
      rw [List.mem_filter] at hp
      have hpP : p ∈ db.users.filter (fun v => !v.bekandidEnabled) := hp.1
      rw [he]
      exact eligible_any_bek_false db.users p hpP hnodup
    · intro p hp
      by_cases hass : ((retract contestId db.users db.assignments).filter
          (fun a => decide (a.contestId = contestId))).any
          (fun a => decide (a.userId = p.id)) = true
      · right
        exact hass
      · left
        have hptoA : p ∈ (db.users.filter (fun v => !v.bekandidEnabled)).filter
            (fun q => !(((retract contestId db.users db.assignments).filter
              (fun a => decide (a.contestId = contestId))).any
              (fun a => decide (a.userId = q.id)))) := by
          refine List.mem_filter.2 ⟨hp, ?_⟩
          cases hb : ((retract contestId db.users db.assignments).filter
              (fun a => decide (a.contestId = contestId))).any
              (fun a => decide (a.userId = p.id)) with
          | false => rfl
          | true => exact absurd hb hass
        obtain ⟨r, hr, he⟩ := assignIncremental_mem env.now contestId _
          (((retract contestId db.users db.assignments).filter
            (fun a => decide (a.contestId = contestId))).filter
            (fun a => decide (a.role = "hunter"))).length
          (((retract contestId db.users db.assignments).filter
            (fun a => decide (a.contestId = contestId))).filter
            (fun a => decide (a.role = "ghost"))).length p hptoA
        rw [List.any_eq_true]
        exact ⟨r, hr, by simp [he]⟩

/-- C9 witness: re-running the sync on `dbC7` (after its initial
partition) at a later instant changes nothing. -/
theorem syncIdempotentWitness :
    syncContestAssignments envT "w0" (syncContestAssignments env0 "w0" dbC7)
      = syncContestAssignments env0 "w0" dbC7 :=
  syncIdempotent env0 envT "w0" dbC7 (by decide)

theorem mostRecent_fold (l : List InboxMessage) :
    ∀ b : InboxMessage,
      ∃ m, l.foldl (fun acc n =>
          match acc with
          | none => some n
          | some c => if n.createdAt > c.createdAt then some n else some c) (some b)
        = some m ∧ b.createdAt ≤ m.createdAt ∧ ∀ x ∈ l, x.createdAt ≤ m.createdAt := by
  induction l with
  | nil => exact fun b => ⟨b, rfl, Int.le_refl _, fun x hx => absurd hx (List.not_mem_nil x)⟩
  | cons x t ih =>
    intro b
    by_cases hgt : x.createdAt > b.createdAt
    · obtain ⟨m, he, hb, hall⟩ := ih x
      refine ⟨m, ?_, ?_, ?_⟩
      · show List.foldl _ (if x.createdAt > b.createdAt then some x else some b) t = some m
        rw [if_pos hgt]
        exact he
      · omega
      · intro y hy
        rcases List.mem_cons.1 hy with rfl | hyt
        · exact hb
        · exact hall y hyt
    · obtain ⟨m, he, hb, hall⟩ := ih b
      refine ⟨m, ?_, hb, ?_⟩
      · show List.foldl _ (if x.createdAt > b.createdAt then some x else some b) t = some m
        rw [if_neg hgt]
        exact he
      · intro y hy
        rcases List.mem_cons.1 hy with rfl | hyt
        · omega
        · exact hall y hyt

theorem mostRecent_none (l : List InboxMessage) (h : mostRecent l = none) :
    l = [] := by
  cases l with
  | nil => rfl
  | cons x t =>
    exfalso
    obtain ⟨m, he, _, _⟩ := mostRecent_fold t x
    have : mostRecent (x :: t) = some m := he
    rw [h] at this
    exact Option.noConfusion this

theorem mostRecent_le (l : List InboxMessage) (m : InboxMessage)
    (h : mostRecent l = some m) : ∀ x ∈ l, x.createdAt ≤ m.createdAt := by
  cases l with
  | nil => exact fun x hx => absurd hx (List.not_mem_nil x)
  | cons y t =>
    obtain ⟨m2, he, hb, hall⟩ := mostRecent_fold t y
    have : mostRecent (y :: t) = some m2 := he
    rw [h] at this
    obtain rfl : m2 = m := (Option.some.inj this).symm
    intro x hx
    rcases List.mem_cons.1 hx with rfl | hxt
    · exact hb
    · exact hall x hxt

/-- Appending a non-alert message preserves the separation invariant. -/
theorem sep_append_non_alert (msgs : List InboxMessage) (n : InboxMessage)
    (hsep : PairAlertsSeparated msgs) (hn : n.type ≠ "contest_alert") :
    PairAlertsSeparated (msgs ++ [n]) := by
  rw [PairAlertsSeparated, List.pairwise_append]
  refine ⟨hsep, List.pairwise_singleton _ n, ?_⟩
  intro x _ y hy h1 h2
  rw [List.mem_singleton.1 hy] at h2
  exact absurd h2 hn

/-- Appending the alert the cooldown guard admits preserves the
separation invariant. -/
theorem sep_append_alert (msgs : List InboxMessage) (uid gid : String)
    (now : Int) (n : InboxMessage)
    (hsep : PairAlertsSeparated msgs)
    (hcool : alertCooldownPassed now msgs uid gid = true)
    (hnr : n.recipientId = uid) (hns : n.senderId = gid)
    (_hnt : n.type = "contest_alert") (hnc : n.createdAt = now) :
    PairAlertsSeparated (msgs ++ [n]) := by
  rw [PairAlertsSeparated, List.pairwise_append]
  refine ⟨hsep, List.pairwise_singleton _ n, ?_⟩
  intro x hx y hy h1 h2 h3 h4
  rw [List.mem_singleton.1 hy] at h3 h4 ⊢
  left
  have hxpair : x ∈ pairAlerts msgs uid gid := by
    refine List.mem_filter.2 ⟨hx, ?_⟩
    rw [hnr] at h3
    rw [hns] at h4
    exact decide_eq_true ⟨h3, h4, h1⟩
  unfold alertCooldownPassed at hcool
  cases hmr : mostRecent (pairAlerts msgs uid gid) with
  | none =>
    rw [mostRecent_none _ hmr] at hxpair
    exact absurd hxpair (List.not_mem_nil x)
  | some m =>
    rw [hmr] at hcool
    have hmx := mostRecent_le _ m hmr x hxpair
    have := of_decide_eq_true hcool
    rw [hnc]
    omega

theorem processProximity_ext (env : Env) (uid : String) (lat lng : Coord)
    (db : Db) (g : GhostRow) :
    ∃ ext, (processProximity env uid lat lng db g).inbox = db.inbox ++ ext ∧
      ∀ m ∈ ext, m.createdAt = env.now ∧ m.recipientId = uid ∧
        m.type = "contest_alert" ∧ m.senderId = g.userId := by
  simp only [processProximity]
  split
  · split
    · refine ⟨[_], rfl, ?_⟩
      intro m hm
      rw [List.mem_singleton.1 hm]
      exact ⟨rfl, rfl, rfl, rfl⟩
    · exact ⟨[], (List.append_nil _).symm, fun m hm => absurd hm (List.not_mem_nil m)⟩
  · exact ⟨[], (List.append_nil _).symm, fun m hm => absurd hm (List.not_mem_nil m)⟩

theorem processProximity_sep (env : Env) (uid : String) (lat lng : Coord)
    (db : Db) (g : GhostRow)
    (hsep : PairAlertsSeparated db.inbox) :
    PairAlertsSeparated (processProximity env uid lat lng db g).inbox := by
  simp only [processProximity]
  split
  · split
    · next hcool =>
      exact sep_append_alert db.inbox uid g.userId env.now _ hsep hcool rfl rfl rfl rfl
    · exact hsep
  · exact hsep

theorem foldProx_ext (env : Env) (uid : String) (lat lng : Coord) :
    ∀ (gs : List GhostRow) (db : Db),
      ∃ ext, (gs.foldl (processProximity env uid lat lng) db).inbox
          = db.inbox ++ ext ∧
        ∀ m ∈ ext, m.createdAt = env.now ∧ m.recipientId = uid ∧
          m.type = "contest_alert"
  | [], db => ⟨[], (List.append_nil _).symm, fun m hm => absurd hm (List.not_mem_nil m)⟩
  | g :: gs, db => by
    obtain ⟨ext1, he1, hp1⟩ := processProximity_ext env uid lat lng db g
    obtain ⟨ext2, he2, hp2⟩ :=
      foldProx_ext env uid lat lng gs (processProximity env uid lat lng db g)
    refine ⟨ext1 ++ ext2, ?_, ?_⟩
    · show (gs.foldl (processProximity env uid lat lng)
        (processProximity env uid lat lng db g)).inbox = _
      rw [he2, he1, List.append_assoc]
    · intro m hm
      rcases List.mem_append.1 hm with h | h
      · obtain ⟨h1, h2, h3, _⟩ := hp1 m h
        exact ⟨h1, h2, h3⟩
      · exact hp2 m h

theorem foldProx_sep (env : Env) (uid : String) (lat lng : Coord) :
    ∀ (gs : List GhostRow) (db : Db), PairAlertsSeparated db.inbox →
      PairAlertsSeparated ((gs.foldl (processProximity env uid lat lng) db).inbox)
  | [], _, hsep => hsep
  | g :: gs, db, hsep =>
    foldProx_sep env uid lat lng gs (processProximity env uid lat lng db g)
      (processProximity_sep env uid lat lng db g hsep)

theorem ghostBranch_sep (env : Env) (cid uid : String) (lat lng : Coord)
    (a : Assignment) (db : Db) (hsep : PairAlertsSeparated db.inbox) :
    PairAlertsSeparated (ghostBranch env cid uid lat lng a db).inbox := by
  simp only [ghostBranch]
  split
  · exact hsep
  · split
    · refine sep_append_non_alert db.inbox _ hsep ?_
      show ("contest_warning" : String) ≠ "contest_alert"
      decide
    · exact hsep

theorem locationUpdate_sep (env : Env) (uid : String) (lat lng : Coord) (db : Db)
    (hsep : PairAlertsSeparated db.inbox) :
    PairAlertsSeparated (handleContestLocationUpdate env uid lat lng db).inbox := by
  have hinb1 : (ensureActiveContest env db).2.inbox = db.inbox :=
    (ensure_frame env db).2.2.1
  cases hfind : (ensureActiveContest env db).2.assignments.find?
      (keyMatch (ensureActiveContest env db).1.id uid) with
  | none =>
    have hred : handleContestLocationUpdate env uid lat lng db
        = (ensureActiveContest env db).2 := by
      simp only [handleContestLocationUpdate, hfind]
    rw [hred, hinb1]
    exact hsep
  | some a =>
    have hdb2 : (recordLocation (ensureActiveContest env db).1.id uid lat lng env.now
        (ensureActiveContest env db).2).inbox = db.inbox := hinb1
    have hsep2 : PairAlertsSeparated (recordLocation (ensureActiveContest env db).1.id
        uid lat lng env.now (ensureActiveContest env db).2).inbox := by
      rw [hdb2]
      exact hsep
    by_cases hrole : a.role = "ghost"
    · have hred : handleContestLocationUpdate env uid lat lng db
          = ghostBranch env (ensureActiveContest env db).1.id uid lat lng a
            (recordLocation (ensureActiveContest env db).1.id uid lat lng env.now
              (ensureActiveContest env db).2) := by
        simp only [handleContestLocationUpdate, hfind, hrole]
        simp
      rw [hred]
      exact ghostBranch_sep env _ uid lat lng a _ hsep2
    · by_cases hrole2 : a.role = "hunter"
      · have hred : handleContestLocationUpdate env uid lat lng db
            = (ghostRows (recordLocation (ensureActiveContest env db).1.id uid lat lng
                env.now (ensureActiveContest env db).2)
                (ensureActiveContest env db).1.id).foldl
              (processProximity env uid lat lng)
              (recordLocation (ensureActiveContest env db).1.id uid lat lng env.now
                (ensureActiveContest env db).2) := by
          simp only [handleContestLocationUpdate, hfind, hrole, hrole2]
          simp
        rw [hred]
        exact foldProx_sep env uid lat lng _ _ hsep2
      · have hred : handleContestLocationUpdate env uid lat lng db
            = recordLocation (ensureActiveContest env db).1.id uid lat lng env.now
              (ensureActiveContest env db).2 := by
          simp only [handleContestLocationUpdate, hfind]
          rw [if_neg hrole, if_pos hrole2]
        rw [hred, hdb2]
        exact hsep

theorem runUpdates_sep (env : Env) : ∀ (updates : List LocUpdate) (db : Db),
    PairAlertsSeparated db.inbox →
    PairAlertsSeparated (runLocationUpdates env updates db).inbox
  | [], _, hsep => hsep
  | u :: rest, db, hsep =>
    runUpdates_sep env rest _
      (locationUpdate_sep { env with now := u.now } u.userId u.lat u.lng db hsep)

theorem pairAlerts_append_irrelevant (inbox ext : List InboxMessage)
    (uid gid : String)
    (hext : ∀ m ∈ ext, ¬(m.senderId = gid)) :
    pairAlerts (inbox ++ ext) uid gid = pairAlerts inbox uid gid := by
  unfold pairAlerts
  rw [List.filter_append]
  have : ext.filter (fun m =>
      decide (m.recipientId = uid ∧ m.senderId = gid ∧ m.type = "contest_alert")) = [] := by
    apply filter_none_eq
    intro m hm
    have := hext m hm
    simp [this]
  rw [this, List.append_nil]

theorem foldProx_emits (env : Env) (uid : String) (lat lng : Coord) :
    ∀ (gs : List GhostRow) (db0 db : Db) (ext : List InboxMessage),
      db.inbox = db0.inbox ++ ext →
      (∀ m ∈ ext, m.createdAt = env.now ∧ m.recipientId = uid ∧
        m.type = "contest_alert") →
      ∀ g ∈ gs,
        (distanceKm env (some lat) (some lng) g.locationLat g.locationLng).leThan
          CONTEST_PROXIMITY_KM = true →
        alertCooldownPassed env.now db0.inbox uid g.userId = true →
        ∃ m ∈ (gs.foldl (processProximity env uid lat lng) db).inbox,
          m.recipientId = uid ∧ m.senderId = g.userId ∧
          m.type = "contest_alert" ∧ m.createdAt = env.now
  | g2 :: gs, db0, db, ext, hinb, hext, g, hg, hd, hcool => by
    obtain ⟨ext1, he1, hp1⟩ := processProximity_ext env uid lat lng db g2
    rcases List.mem_cons.1 hg with rfl | hgrest
    · -- g is the head: an alert for (uid, g) exists once its turn runs
      have hexists : ∃ m ∈ (processProximity env uid lat lng db g).inbox,
          m.recipientId = uid ∧ m.senderId = g.userId ∧
          m.type = "contest_alert" ∧ m.createdAt = env.now := by
        by_cases hA : ∃ m ∈ ext, m.senderId = g.userId
        · obtain ⟨m, hm, hmg⟩ := hA
          obtain ⟨h1, h2, h3⟩ := hext m hm
          refine ⟨m, ?_, h2, hmg, h3, h1⟩
          rw [he1]
          exact List.mem_append_left _ (hinb ▸ List.mem_append_right _ hm)
        · push_neg at hA
          have hpa : pairAlerts db.inbox uid g.userId
              = pairAlerts db0.inbox uid g.userId := by
            rw [hinb]
            exact pairAlerts_append_irrelevant db0.inbox ext uid g.userId hA
          have hcool2 : alertCooldownPassed env.now db.inbox uid g.userId = true := by
            unfold alertCooldownPassed at hcool ⊢
            rw [hpa]
            exact hcool
          have hred : processProximity env uid lat lng db g
              = createInboxEntry env db uid g.userId none "contest_alert"
                (some (g.displayName ++ " is within "
                  ++ toString (distanceKm env (some lat) (some lng) g.locationLat
                    g.locationLng).meters ++ " meters!")) env.now := by
            simp only [processProximity]
            rw [if_pos hd, if_pos hcool2]
          rw [hred]
          exact ⟨_, List.mem_append_right _ (List.mem_singleton.2 rfl),
            rfl, rfl, rfl, rfl⟩
      obtain ⟨m, hm, hmp⟩ := hexists
      obtain ⟨ext2, he2, _⟩ :=
        foldProx_ext env uid lat lng gs (processProximity env uid lat lng db g)
      refine ⟨m, ?_, hmp⟩
      show m ∈ (gs.foldl (processProximity env uid lat lng)
        (processProximity env uid lat lng db g)).inbox
      rw [he2]
      exact List.mem_append_left _ hm
    · -- g comes later: recurse with the grown prefix
      have hext1' : ∀ m ∈ ext ++ ext1, m.createdAt = env.now ∧
          m.recipientId = uid ∧ m.type = "contest_alert" := by
        intro m hm
        rcases List.mem_append.1 hm with h | h
        · exact hext m h
        · obtain ⟨h1, h2, h3, _⟩ := hp1 m h
          exact ⟨h1, h2, h3⟩
      have hinb' : (processProximity env uid lat lng db g2).inbox
          = db0.inbox ++ (ext ++ ext1) := by
        rw [he1, hinb, List.append_assoc]
      exact foldProx_emits env uid lat lng gs db0
        (processProximity env uid lat lng db g2) (ext ++ ext1) hinb' hext1'
        g hgrest hd hcool

/-- C8: (a) across any sequence of location updates, any two
`contest_alert` messages for the same (hunter, ghost) pair are more
than the 1-hour cooldown apart — at most one alert per pair in any
rolling 1-hour window, however frequent the updates, with the cooldown
scoped to the (recipient, sender) pair; (b) a hunter's update DOES
emit an alert stamped `now` for every scanned live ghost within 0.3 km
whose pair has no prior alert or only one older than the cooldown. -/
theorem proximityAlertOncePerWindow (env : Env) (updates : List LocUpdate)
    (db : Db) (hsep : PairAlertsSeparated db.inbox) :
    PairAlertsSeparated (runLocationUpdates env updates db).inbox ∧
    ∀ (uid : String) (lat lng : Coord) (a : Assignment) (g : GhostRow),
      (ensureActiveContest env db).2.assignments.find?
        (keyMatch (ensureActiveContest env db).1.id uid) = some a →
      a.role = "hunter" →
      g ∈ ghostRows (recordLocation (ensureActiveContest env db).1.id uid lat lng
        env.now (ensureActiveContest env db).2) (ensureActiveContest env db).1.id →
      (distanceKm env (some lat) (some lng) g.locationLat g.locationLng).leThan
        CONTEST_PROXIMITY_KM = true →
      alertCooldownPassed env.now db.inbox uid g.userId = true →
      ∃ m ∈ (handleContestLocationUpdate env uid lat lng db).inbox,
        m.recipientId = uid ∧ m.senderId = g.userId ∧
        m.type = "contest_alert" ∧ m.createdAt = env.now := by
  refine ⟨runUpdates_sep env updates db hsep, ?_⟩
  intro uid lat lng a g hfind hrole hg hd hcool
  have hrole1 : ¬(a.role = "ghost") := by
    rw [hrole]
    decide
  have hred : handleContestLocationUpdate env uid lat lng db
      = (ghostRows (recordLocation (ensureActiveContest env db).1.id uid lat lng
          env.now (ensureActiveContest env db).2)
          (ensureActiveContest env db).1.id).foldl
        (processProximity env uid lat lng)
        (recordLocation (ensureActiveContest env db).1.id uid lat lng env.now
          (ensureActiveContest env db).2) := by
    simp only [handleContestLocationUpdate, hfind, hrole, hrole1]
    simp
  rw [hred]
  have hdb2 : (recordLocation (ensureActiveContest env db).1.id uid lat lng env.now
      (ensureActiveContest env db).2).inbox = db.inbox ++ [] := by
    rw [List.append_nil]
    exact (ensure_frame env db).2.2.1
  exact foldProx_emits env uid lat lng _ db _ [] hdb2
    (fun m hm => absurd hm (List.not_mem_nil m)) g hg hd hcool

/-- C8 witness: the empty update sequence on `dbC8` (whose inbox is
empty) keeps the invariant, and the emission conclusion is available
for its hunter. -/
theorem proximityAlertOncePerWindowWitness :
    PairAlertsSeparated (runLocationUpdates envT [] dbC8).inbox ∧
    ∀ (uid : String) (lat lng : Coord) (a : Assignment) (g : GhostRow),
      (ensureActiveContest envT dbC8).2.assignments.find?
        (keyMatch (ensureActiveContest envT dbC8).1.id uid) = some a →
      a.role = "hunter" →
      g ∈ ghostRows (recordLocation (ensureActiveContest envT dbC8).1.id uid lat lng
        envT.now (ensureActiveContest envT dbC8).2) (ensureActiveContest envT dbC8).1.id →
      (distanceKm envT (some lat) (some lng) g.locationLat g.locationLng).leThan
        CONTEST_PROXIMITY_KM = true →
      alertCooldownPassed envT.now dbC8.inbox uid g.userId = true →
      ∃ m ∈ (handleContestLocationUpdate envT uid lat lng dbC8).inbox,
        m.recipientId = uid ∧ m.senderId = g.userId ∧
        m.type = "contest_alert" ∧ m.createdAt = envT.now :=
  proximityAlertOncePerWindow envT [] dbC8 List.Pairwise.nil

theorem isEmpty_map (f : α → β) (l : List α) : (l.map f).isEmpty = l.isEmpty := by
  cases l <;> rfl

theorem filter_map_comm (p : β → Bool) (f : α → β) (l : List α) :
    (l.map f).filter p = (l.filter (fun a => p (f a))).map f := by
  induction l with
  | nil => rfl
  | cons a t ih => cases hp : p (f a) <;> simp [List.filter_cons, hp, ih]

theorem find?_map_comm (p : β → Bool) (f : α → β) (l : List α) :
    (l.map f).find? p = (l.find? (fun a => p (f a))).map f := by
  induction l with
  | nil => rfl
  | cons a t ih => cases hp : p (f a) <;> simp [List.find?_cons, hp, ih]

theorem any_map_comm (p : β → Bool) (f : α → β) (l : List α) :
    (l.map f).any p = l.any (fun a => p (f a)) := by
  induction l with
  | nil => rfl
  | cons a t ih => simp [List.any_cons, ih]

theorem set_map_comm (f : α → β) (l : List α) (x : α) :
    ∀ i : Nat, (l.map f).set i (f x) = (l.set i x).map f := by
  induction l with
  | nil => intro i; rfl
  | cons a t ih =>
    intro i
    cases i with
    | zero => rfl
    | succ n =>
      show f a :: (t.map f).set n (f x) = f a :: (t.set n x).map f
      rw [ih n]

theorem listSwap_map (f : α → β) (l : List α) (i j : Nat) :
    listSwap (l.map f) i j = (listSwap l i j).map f := by
  unfold listSwap
  rw [List.get?_map, List.get?_map]
  cases h1 : l.get? i with
  | none => rfl
  | some x =>
    cases h2 : l.get? j with
    | none => rfl
    | some y =>
      show ((l.map f).set i (f y)).set j (f x) = _
      rw [set_map_comm, set_map_comm]

theorem shuffleGo_map (f : α → β) (rand : Nat → Nat) :
    ∀ (n : Nat) (l : List α),
      shuffleGo rand n (l.map f) = (shuffleGo rand n l).map f
  | 0, l => rfl
  | n + 1, l => by
    show shuffleGo rand n (listSwap (l.map f) (n + 1) (rand (n + 1))) = _
    rw [listSwap_map f l]
    exact shuffleGo_map f rand n (listSwap l (n + 1) (rand (n + 1)))

theorem shuffle_map (f : α → β) (rand : Nat → Nat) (l : List α) :
    shuffle rand (l.map f) = (shuffle rand l).map f := by
  unfold shuffle
  rw [List.length_map]
  exact shuffleGo_map f rand (l.length - 1) l

theorem take_map_comm (f : α → β) :
    ∀ (n : Nat) (l : List α), (l.map f).take n = (l.take n).map f
  | 0, _ => rfl
  | _ + 1, [] => rfl
  | n + 1, a :: t => by
    show f a :: (t.map f).take n = f a :: (t.take n).map f
    rw [take_map_comm f n t]

theorem drop_map_comm (f : α → β) :
    ∀ (n : Nat) (l : List α), (l.map f).drop n = (l.drop n).map f
  | 0, _ => rfl
  | _ + 1, [] => rfl
  | n + 1, a :: t => drop_map_comm f n t

theorem assignIncremental_scrubUsers (now : Int) (cid : String) :
    ∀ (us : List User) (h g : Nat),
      assignIncremental now cid (us.map scrubUser) h g
        = assignIncremental now cid us h g
  | [], _, _ => rfl
  | u :: rest, h, g => by
    show assignIncremental now cid (scrubUser u :: rest.map scrubUser) h g = _
    unfold assignIncremental
    split <;>
      · rw [assignIncremental_scrubUsers now cid rest]
        rfl

theorem assignIncremental_scrub_rows (now : Int) (cid : String) :
    ∀ (us : List User) (h g : Nat),
      (assignIncremental now cid us h g).map scrubAssignment
        = assignIncremental now cid us h g
  | [], _, _ => rfl
  | u :: rest, h, g => by
    unfold assignIncremental
    split <;>
      · show scrubAssignment _ :: _ = _
        rw [assignIncremental_scrub_rows now cid rest]
        rfl

theorem map_scrub_new (cid role : String) (now : Int) (l : List User) :
    (l.map (fun u => newAssignment cid u.id role now)).map scrubAssignment
      = l.map (fun u => newAssignment cid u.id role now) := by
  induction l with
  | nil => rfl
  | cons a t ih =>
    show scrubAssignment _ :: _ = _
    rw [ih]
    rfl

theorem retract_scrub (cid : String) (users : List User) (asg : List Assignment) :
    retract cid (users.map scrubUser) (asg.map scrubAssignment)
      = (retract cid users asg).map scrubAssignment := by
  simp only [retract, filter_map_comm, isEmpty_map, any_map_comm, scrubUser,
    scrubAssignment]
  split <;> rfl

theorem map_new_comp_scrub (cid role : String) (now : Int) (l : List User) :
    l.map ((fun u => newAssignment cid u.id role now) ∘ scrubUser)
      = l.map (fun u => newAssignment cid u.id role now) := by
  induction l with
  | nil => rfl
  | cons a t ih =>
    show _ :: _ = _ :: _
    rw [ih]
    rfl

theorem syncedAssignments_scrub (env : Env) (cid : String) (db : Db) :
    syncedAssignments env cid (scrubDb db)
      = (syncedAssignments env cid db).map scrubAssignment := by
  simp only [syncedAssignments, scrubDb, retract_scrub, filter_map_comm,
    isEmpty_map, any_map_comm, shuffle_map, List.length_map, take_map_comm,
    drop_map_comm, List.map_map, scrubUser, scrubAssignment]
  split
  · rw [List.map_append, List.map_append, map_scrub_new, map_scrub_new,
      map_new_comp_scrub, map_new_comp_scrub]
  · rw [List.map_append, assignIncremental_scrubUsers,
      assignIncremental_scrub_rows]

theorem sync_scrub (env : Env) (cid : String) (db : Db) :
    syncContestAssignments env cid (scrubDb db)
      = scrubDb (syncContestAssignments env cid db) := by
  show { scrubDb db with assignments := syncedAssignments env cid (scrubDb db) }
    = scrubDb { db with assignments := syncedAssignments env cid db }
  rw [syncedAssignments_scrub]
  rfl

theorem ensure_scrub (env : Env) (db : Db) :
    ensureActiveContest env (scrubDb db)
      = ((ensureActiveContest env db).1, scrubDb (ensureActiveContest env db).2) := by
  simp only [ensureActiveContest]
  have hweeks : (scrubDb db).contestWeeks = db.contestWeeks := rfl
  have hnext : (scrubDb db).nextId = db.nextId := rfl
  rw [hweeks, hnext]
  cases hfind : db.contestWeeks.find?
      (fun c => decide (c.startsAt = (getContestWindow env.now).1)) with
  | none =>
    show (_, syncContestAssignments env _ { scrubDb db with
        contestWeeks := db.contestWeeks ++ [_], nextId := db.nextId + 1 }) = _
    rw [show ({ scrubDb db with
        contestWeeks := db.contestWeeks ++
          [{ id := env.idGen db.nextId,
             startsAt := (getContestWindow env.now).1,
             endsAt := (getContestWindow env.now).2,
             challenge := CONTEST_CHALLENGES.getD
               (env.challengePick % CONTEST_CHALLENGES.length) "" }],
        nextId := db.nextId + 1 } : Db)
      = scrubDb { db with
          contestWeeks := db.contestWeeks ++
            [{ id := env.idGen db.nextId,
               startsAt := (getContestWindow env.now).1,
               endsAt := (getContestWindow env.now).2,
               challenge := CONTEST_CHALLENGES.getD
                 (env.challengePick % CONTEST_CHALLENGES.length) "" }],
          nextId := db.nextId + 1 } from rfl]
    rw [sync_scrub]
  | some c =>
    show (c, syncContestAssignments env c.id (scrubDb db)) = _
    rw [sync_scrub]

theorem map_comp_scrub (f g : Assignment → Assignment)
    (hfg : ∀ a, f (scrubAssignment a) = scrubAssignment (g a)) :
    ∀ l : List Assignment,
      (l.map scrubAssignment).map f = (l.map g).map scrubAssignment
  | [] => rfl
  | a :: t => by
    show f (scrubAssignment a) :: (t.map scrubAssignment).map f
      = scrubAssignment (g a) :: (t.map g).map scrubAssignment
    rw [hfg a, map_comp_scrub f g hfg t]

theorem bumpCaptures_scrub (cid hid : String) (a : Assignment) :
    bumpCaptures cid hid (scrubAssignment a)
      = scrubAssignment (bumpCaptures cid hid a) := by
  unfold bumpCaptures
  by_cases hk : keyMatch cid hid a = true
  · have hk2 : keyMatch cid hid (scrubAssignment a) = true := hk
    rw [if_pos hk2, if_pos hk]
    rfl
  · have hk2 : ¬keyMatch cid hid (scrubAssignment a) = true := hk
    rw [if_neg hk2, if_neg hk]

theorem dropSurvival_scrub (cid gid : String) (a : Assignment) :
    dropSurvival cid gid (scrubAssignment a)
      = scrubAssignment (dropSurvival cid gid a) := by
  unfold dropSurvival
  by_cases hk : keyMatch cid gid a = true
  · have hk2 : keyMatch cid gid (scrubAssignment a) = true := hk
    rw [if_pos hk2, if_pos hk]
    rfl
  · have hk2 : ¬keyMatch cid gid (scrubAssignment a) = true := hk
    rw [if_neg hk2, if_neg hk]

theorem captureWrites_scrub (env : Env) (cid hid gid : String)
    (pid : Option String) (ch : String) (db1 : Db) :
    captureWrites env cid hid gid pid ch (scrubDb db1)
      = scrubDb (captureWrites env cid hid gid pid ch db1) := by
  simp only [captureWrites, createInboxEntry, scrubDb]
  rw [map_comp_scrub _ _ (bumpCaptures_scrub cid hid),
    map_comp_scrub _ _ (dropSurvival_scrub cid gid)]

theorem capture_scrub (env : Env) (hid gid : String) (pid : Option String)
    (ch : String) (db : Db) :
    handleContestCapture env hid gid pid ch (scrubDb db)
      = (scrubDb (handleContestCapture env hid gid pid ch db).1,
         (handleContestCapture env hid gid pid ch db).2) := by
  have hfh : (scrubDb (ensureActiveContest env db).2).assignments.find?
      (keyMatch (ensureActiveContest env db).1.id hid)
      = ((ensureActiveContest env db).2.assignments.find?
          (keyMatch (ensureActiveContest env db).1.id hid)).map scrubAssignment :=
    find?_map_comm _ scrubAssignment _
  have hfg2 : (scrubDb (ensureActiveContest env db).2).assignments.find?
      (keyMatch (ensureActiveContest env db).1.id gid)
      = ((ensureActiveContest env db).2.assignments.find?
          (keyMatch (ensureActiveContest env db).1.id gid)).map scrubAssignment :=
    find?_map_comm _ scrubAssignment _
  simp only [handleContestCapture, ensure_scrub env db, hfh, hfg2]
  by_cases hch : (ensureActiveContest env db).1.challenge ≠ ch
  · rw [if_pos hch, if_pos hch]
  · rw [if_neg hch, if_neg hch]
    cases hh : (ensureActiveContest env db).2.assignments.find?
        (keyMatch (ensureActiveContest env db).1.id hid) with
    | none => rfl
    | some ha =>
      cases hg : (ensureActiveContest env db).2.assignments.find?
          (keyMatch (ensureActiveContest env db).1.id gid) with
      | none =>
        simp only [Option.map_some', Option.map_none']
        by_cases hrole : ha.role ≠ "hunter"
        · have hrole2 : (scrubAssignment ha).role ≠ "hunter" := hrole
          rw [if_pos hrole2, if_pos hrole]
        · have hrole2 : ¬(scrubAssignment ha).role ≠ "hunter" := hrole
          rw [if_neg hrole2, if_neg hrole]
      | some ga =>
        simp only [Option.map_some']
        by_cases hrole : ha.role ≠ "hunter"
        · have hrole2 : (scrubAssignment ha).role ≠ "hunter" := hrole
          rw [if_pos hrole2, if_pos hrole]
        · have hrole2 : ¬(scrubAssignment ha).role ≠ "hunter" := hrole
          rw [if_neg hrole2, if_neg hrole]
          by_cases hgr : ga.role ≠ "ghost"
          · have hgr2 : (scrubAssignment ga).role ≠ "ghost" := hgr
            rw [if_pos hgr2, if_pos hgr]
          · have hgr2 : ¬(scrubAssignment ga).role ≠ "ghost" := hgr
            rw [if_neg hgr2, if_neg hgr]
            rw [captureWrites_scrub]

/-- Two states that agree on everything except the location columns
(`users.location_lat/lng` and the assignments' last-location fields)
have equal scrubs. -/
theorem scrubDb_eq_of_loc_agree (db1 db2 : Db)
    (husers : db1.users.map scrubUser = db2.users.map scrubUser)
    (hasg : db1.assignments.map scrubAssignment
      = db2.assignments.map scrubAssignment)
    (hweeks : db1.contestWeeks = db2.contestWeeks)
    (hcap : db1.captures = db2.captures)
    (hinbox : db1.inbox = db2.inbox)
    (hposts : db1.posts = db2.posts)
    (hnext : db1.nextId = db2.nextId) : scrubDb db1 = scrubDb db2 := by
  unfold scrubDb
  rw [husers, hasg, hweeks, hcap, hinbox, hposts, hnext]

/-- C10: the capture validator never consults location data.  For any
two states with equal scrubs — identical except for the location
fields — `handleContestCapture` with the same inputs produces the same
outcome and scrub-equal result states: a hunter arbitrarily far from
the ghost, or with no reported location at all, fares exactly as one
standing beside it. -/
theorem captureIgnoresLocation (env : Env) (hid gid : String)
    (pid : Option String) (ch : String) (db1 db2 : Db)
    (hscrub : scrubDb db1 = scrubDb db2) :
    (handleContestCapture env hid gid pid ch db1).2
      = (handleContestCapture env hid gid pid ch db2).2 ∧
    scrubDb (handleContestCapture env hid gid pid ch db1).1
      = scrubDb (handleContestCapture env hid gid pid ch db2).1 := by
  have e1 := capture_scrub env hid gid pid ch db1
  have e2 := capture_scrub env hid gid pid ch db2
  rw [hscrub, e2] at e1
  exact ⟨(congrArg Prod.snd e1).symm, (congrArg Prod.fst e1).symm⟩

/-- C10 witness: `dbC10a` (hunter far away, locations filled in) and
`dbC10b` (no locations at all) differ only in location fields; the
capture behaves identically on both. -/
theorem captureIgnoresLocationWitness :
    (handleContestCapture env0 "u1" "u2" (some "p1") "Capture them eating" dbC10a).2
      = (handleContestCapture env0 "u1" "u2" (some "p1") "Capture them eating" dbC10b).2 ∧
    scrubDb (handleContestCapture env0 "u1" "u2" (some "p1") "Capture them eating" dbC10a).1
      = scrubDb (handleContestCapture env0 "u1" "u2" (some "p1") "Capture them eating" dbC10b).1 :=
  captureIgnoresLocation env0 "u1" "u2" (some "p1") "Capture them eating"
    dbC10a dbC10b (by decide)

end Kandid

